import Mathlib

/-!
Shallow embedding of the FreeFileSync synchronization decision engine
(direction resolver, move detector, filter engine, and the low-level file
primitives `copyNewFile` / `itemStillExists`), together with theorems
checking the natural-language specification against the code.

Conventions:
* machine integers are modelled as `Int` (file times) and `Nat`
  (file sizes, file prints); none of the modelled code relies on overflow;
* names (`Zstring`) are modelled as Lean `String`;
* the mutable pair tree is modelled functionally: each pass maps the old
  tree to the new one;
* fallible code returns `Except`.
-/

namespace FFS

/-- One of the two sides of a folder pair (`SelectSide`). -/
inductive Side where
  | left
  | right
deriving DecidableEq, Repr

/-- `CompareVariant` from `structures.h`. -/
inductive CompareVariant where
  | timeSize
  | content
  | size
deriving DecidableEq, Repr

/-- `SyncDirection` from `structures.h`. -/
inductive SyncDirection where
  | none
  | left
  | right
deriving DecidableEq, Repr

/-- The direction state of an item: either a plain direction
(`setSyncDir`) or a conflict annotation (`setSyncDirConflict`). -/
inductive SyncDirState where
  | dir (d : SyncDirection)
  | conflict (msg : String)
deriving DecidableEq, Repr

/-- `DirectionSet` from `structures.h`: the one-way policy record. -/
structure DirectionSet where
  exLeftSideOnly  : SyncDirection
  exRightSideOnly : SyncDirection
  leftNewer       : SyncDirection
  rightNewer      : SyncDirection
  different       : SyncDirection
  conflict        : SyncDirection
deriving DecidableEq, Repr

/-- `CompareFileResult` from `file_hierarchy.h`. -/
inductive CompareFileResult where
  | FILE_EQUAL
  | FILE_LEFT_SIDE_ONLY
  | FILE_RIGHT_SIDE_ONLY
  | FILE_LEFT_NEWER
  | FILE_RIGHT_NEWER
  | FILE_DIFFERENT_CONTENT
  | FILE_DIFFERENT_METADATA
  | FILE_CONFLICT
deriving DecidableEq, Repr

/-- `CompareSymlinkResult` from `file_hierarchy.h`. -/
inductive CompareSymlinkResult where
  | SYMLINK_EQUAL
  | SYMLINK_LEFT_SIDE_ONLY
  | SYMLINK_RIGHT_SIDE_ONLY
  | SYMLINK_LEFT_NEWER
  | SYMLINK_RIGHT_NEWER
  | SYMLINK_DIFFERENT_CONTENT
  | SYMLINK_DIFFERENT_METADATA
  | SYMLINK_CONFLICT
deriving DecidableEq, Repr

/-- `CompareDirResult` from `file_hierarchy.h`. -/
inductive CompareDirResult where
  | DIR_EQUAL
  | DIR_LEFT_SIDE_ONLY
  | DIR_RIGHT_SIDE_ONLY
  | DIR_DIFFERENT_METADATA
  | DIR_CONFLICT
deriving DecidableEq, Repr

/-- `FAT_FILE_TIME_PRECISION_SEC` from `file_access.h`. -/
def FAT_FILE_TIME_PRECISION_SEC : Int := 2

/-- `AFS::TEMP_FILE_ENDING` from `abstract.h`. -/
def TEMP_FILE_ENDING : String := ".ffs_tmp"

/-- `zen::endsWith` on names, modelled on the character lists of the
two strings. -/
def zEndsWith (s suffixStr : String) : Bool :=
  decide (suffixStr.data = s.data.drop (s.data.length - suffixStr.data.length))

/-- Modelled from the spec: `sameFileTime` (its header `cmp_filetime.h`
is not among the sources).  Spec 4.2: two times compare equal iff
`|lhs − rhs| ≤ tolerance` modulo the ignore-time-shift list: each entry
is a whole number of minutes, and the pair is accepted if the residual
after subtracting any multiple of the shift is within tolerance. -/
def sameFileTime (lhs rhs tolerance : Int) (ignoreTimeShiftMinutes : List Nat) : Bool :=
  let d := if lhs ≤ rhs then rhs - lhs else lhs - rhs
  d ≤ tolerance ||
    ignoreTimeShiftMinutes.any fun m =>
      0 < m &&
        (let s : Int := (m : Int) * 60
         let r := d % s
         r ≤ tolerance || s - r ≤ tolerance)

/-- `InSyncDescrFile` from `db_file.h`: `{mod_time, file_print}`
(structure modelled from the spec's data model; the predicates using it
are translated from the source). -/
structure InSyncDescrFile where
  modTime   : Int
  filePrint : Nat
deriving DecidableEq, Repr

/-- `InSyncDescrLink` from `db_file.h`: `{mod_time}`. -/
structure InSyncDescrLink where
  modTime : Int
deriving DecidableEq, Repr

/-- `InSyncFile` from `db_file.h`. -/
structure InSyncFile where
  left     : InSyncDescrFile
  right    : InSyncDescrFile
  fileSize : Nat
  cmpVar   : CompareVariant
deriving DecidableEq, Repr

/-- `InSyncSymlink` from `db_file.h`. -/
structure InSyncSymlink where
  left   : InSyncDescrLink
  right  : InSyncDescrLink
  cmpVar : CompareVariant
deriving DecidableEq, Repr

/-- `InSyncFolder::InSyncStatus` from `db_file.h`. -/
inductive InSyncDirStatus where
  | DIR_STATUS_NORMAL
  | DIR_STATUS_STRAW_MAN
deriving DecidableEq, Repr

/-- `InSyncFolder` from `db_file.h`: name-keyed maps of files, symlinks
and subfolders plus the straw-man status.  The maps are modelled as
association lists with case-sensitive string keys. -/
inductive InSyncFolder where
  | mk (files : List (String × InSyncFile))
       (symlinks : List (String × InSyncSymlink))
       (folders : List (String × InSyncFolder))
       (status : InSyncDirStatus)

/-- `stillInSync(InSyncFile)` from the source: is the database entry in
sync considering *current* comparison settings. -/
def stillInSyncFile (dbFile : InSyncFile) (compareVar : CompareVariant)
    (fileTimeTolerance : Int) (ignoreTimeShiftMinutes : List Nat) : Bool :=
  match compareVar with
  | CompareVariant.timeSize =>
      if dbFile.cmpVar = CompareVariant.content then true
      else sameFileTime dbFile.left.modTime dbFile.right.modTime fileTimeTolerance ignoreTimeShiftMinutes
  | CompareVariant.content => dbFile.cmpVar = CompareVariant.content
  | CompareVariant.size => true

/-- `stillInSync(InSyncSymlink)` from the source. -/
def stillInSyncLink (dbLink : InSyncSymlink) (compareVar : CompareVariant)
    (fileTimeTolerance : Int) (ignoreTimeShiftMinutes : List Nat) : Bool :=
  match compareVar with
  | CompareVariant.timeSize =>
      if dbLink.cmpVar = CompareVariant.content ∨ dbLink.cmpVar = CompareVariant.size then true
      else sameFileTime dbLink.left.modTime dbLink.right.modTime fileTimeTolerance ignoreTimeShiftMinutes
  | CompareVariant.content => dbLink.cmpVar = CompareVariant.content ∨ dbLink.cmpVar = CompareVariant.size
  | CompareVariant.size    => dbLink.cmpVar = CompareVariant.content ∨ dbLink.cmpVar = CompareVariant.size

/-- `stillInSync(InSyncFolder)` from the source: always true. -/
def stillInSyncFolder (_dbFolder : InSyncFolder) : Bool :=
  true

/-- The reference still-in-sync definition stated by the spec (claim C2),
applied to a database record with left/right modification times and a
stored comparison variant: under current variant time-size a record
stored with variant content always passes, otherwise the left/right
modification times must agree within tolerance + shifts; under current
variant content the record must be stored with variant content; under
current variant size it always passes. -/
def refStillInSync (lModTime rModTime : Int) (dbVar curVar : CompareVariant)
    (fileTimeTolerance : Int) (ignoreTimeShiftMinutes : List Nat) : Bool :=
  match curVar with
  | CompareVariant.timeSize =>
      if dbVar = CompareVariant.content then true
      else sameFileTime lModTime rModTime fileTimeTolerance ignoreTimeShiftMinutes
  | CompareVariant.content => dbVar = CompareVariant.content
  | CompareVariant.size => true

/-- `FilePair` node of the scanned pair tree (`file_hierarchy.h`):
per-side attributes (a side may be empty), the computed category, and
the mutable sync-direction / active flags. -/
structure FilePair where
  itemNameL  : String
  itemNameR  : String
  relPathAny : String
  emptyL     : Bool
  emptyR     : Bool
  modTimeL   : Int
  modTimeR   : Int
  fileSizeL  : Nat
  fileSizeR  : Nat
  filePrintL : Nat
  filePrintR : Nat
  id         : Nat
  moveRef    : Option Nat
  category   : CompareFileResult
  catDescr   : String
  syncDir    : SyncDirState
  active     : Bool
deriving DecidableEq, Repr

/-- `SymlinkPair` node of the scanned pair tree. -/
structure SymlinkPair where
  itemNameL  : String
  itemNameR  : String
  relPathAny : String
  emptyL     : Bool
  emptyR     : Bool
  modTimeL   : Int
  modTimeR   : Int
  category   : CompareSymlinkResult
  catDescr   : String
  syncDir    : SyncDirState
  active     : Bool
deriving DecidableEq, Repr

/-- The own data of a `FolderPair` node. -/
structure FolderData where
  itemNameL  : String
  itemNameR  : String
  relPathAny : String
  emptyL     : Bool
  emptyR     : Bool
  category   : CompareDirResult
  catDescr   : String
  syncDir    : SyncDirState
  active     : Bool
deriving DecidableEq, Repr

/-- A `FolderPair` subtree: own data plus contained files, symlinks and
subfolders (`ContainerObject` part of `file_hierarchy.h`). -/
inductive FolderTree where
  | node (data : FolderData) (files : List FilePair)
         (links : List SymlinkPair) (subs : List FolderTree)

/-- The contents of a `ContainerObject` (e.g. the `BaseFolderPair`
root): contained files, symlinks and subfolders. -/
structure ContainerObject where
  files   : List FilePair
  links   : List SymlinkPair
  folders : List FolderTree

/-- Per-side item name (`getItemName<side>`). -/
def FilePair.itemName (f : FilePair) : Side → String
  | Side.left  => f.itemNameL
  | Side.right => f.itemNameR

/-- Per-side emptiness (`isEmpty<side>`). -/
def FilePair.isEmpty (f : FilePair) : Side → Bool
  | Side.left  => f.emptyL
  | Side.right => f.emptyR

/-- Per-side last write time (`getLastWriteTime<side>`). -/
def FilePair.getLastWriteTime (f : FilePair) : Side → Int
  | Side.left  => f.modTimeL
  | Side.right => f.modTimeR

/-- Per-side file size (`getFileSize<side>`). -/
def FilePair.getFileSize (f : FilePair) : Side → Nat
  | Side.left  => f.fileSizeL
  | Side.right => f.fileSizeR

/-- Per-side file print (`getFilePrint<side>`). -/
def FilePair.getFilePrint (f : FilePair) : Side → Nat
  | Side.left  => f.filePrintL
  | Side.right => f.filePrintR

/-- `clearFilePrint<side>`. -/
def FilePair.clearFilePrint (f : FilePair) : Side → FilePair
  | Side.left  => { f with filePrintL := 0 }
  | Side.right => { f with filePrintR := 0 }

/-- Per-side item name of a symlink pair. -/
def SymlinkPair.itemName (s : SymlinkPair) : Side → String
  | Side.left  => s.itemNameL
  | Side.right => s.itemNameR

/-- Per-side emptiness of a symlink pair. -/
def SymlinkPair.isEmpty (s : SymlinkPair) : Side → Bool
  | Side.left  => s.emptyL
  | Side.right => s.emptyR

/-- Per-side last write time of a symlink pair. -/
def SymlinkPair.getLastWriteTime (s : SymlinkPair) : Side → Int
  | Side.left  => s.modTimeL
  | Side.right => s.modTimeR

/-- Per-side item name of a folder pair. -/
def FolderData.itemName (d : FolderData) : Side → String
  | Side.left  => d.itemNameL
  | Side.right => d.itemNameR

/-- Per-side emptiness of a folder pair. -/
def FolderData.isEmpty (d : FolderData) : Side → Bool
  | Side.left  => d.emptyL
  | Side.right => d.emptyR

/-- `SelectParam<side>::ref(dbFile->left, dbFile->right)`. -/
def InSyncFile.descr (dbFile : InSyncFile) : Side → InSyncDescrFile
  | Side.left  => dbFile.left
  | Side.right => dbFile.right

/-- `SelectParam<side>::ref(dbLink->left, dbLink->right)`. -/
def InSyncSymlink.descr (dbLink : InSyncSymlink) : Side → InSyncDescrLink
  | Side.left  => dbLink.left
  | Side.right => dbLink.right

/-- `matchesDbEntry<side>(FilePair, InSyncFile*)` from the source:
does the current item on the given side match the database entry,
irrespective of current comparison settings. -/
def matchesDbEntryFile (side : Side) (file : FilePair) (dbFile : Option InSyncFile)
    (ignoreTimeShiftMinutes : List Nat) : Bool :=
  if file.isEmpty side then dbFile.isNone
  else
    match dbFile with
    | none => false
    | some db =>
        sameFileTime (file.getLastWriteTime side) (db.descr side).modTime
          FAT_FILE_TIME_PRECISION_SEC ignoreTimeShiftMinutes &&
        file.getFileSize side = db.fileSize

/-- `matchesDbEntry<side>(SymlinkPair, InSyncSymlink*)` from the source. -/
def matchesDbEntryLink (side : Side) (symlink : SymlinkPair) (dbSymlink : Option InSyncSymlink)
    (ignoreTimeShiftMinutes : List Nat) : Bool :=
  if symlink.isEmpty side then dbSymlink.isNone
  else
    match dbSymlink with
    | none => false
    | some db =>
        sameFileTime (symlink.getLastWriteTime side) (db.descr side).modTime
          FAT_FILE_TIME_PRECISION_SEC ignoreTimeShiftMinutes

/-- The straw-man status of a database folder entry. -/
def InSyncFolder.status : InSyncFolder → InSyncDirStatus
  | InSyncFolder.mk _ _ _ st => st

/-- The file entries of a database folder. -/
def InSyncFolder.files : InSyncFolder → List (String × InSyncFile)
  | InSyncFolder.mk fs _ _ _ => fs

/-- The symlink entries of a database folder. -/
def InSyncFolder.symlinks : InSyncFolder → List (String × InSyncSymlink)
  | InSyncFolder.mk _ ls _ _ => ls

/-- The subfolder entries of a database folder. -/
def InSyncFolder.folders : InSyncFolder → List (String × InSyncFolder)
  | InSyncFolder.mk _ _ sub _ => sub

/-- `matchesDbEntry<side>(FolderPair, InSyncFolder*)` from the source:
presence matches presence, with a straw-man record counting as "not
really there". -/
def matchesDbEntryFolder (side : Side) (folder : FolderData) (dbFolder : Option InSyncFolder) : Bool :=
  let haveDbEntry :=
    match dbFolder with
    | none => false
    | some db => db.status ≠ InSyncDirStatus.DIR_STATUS_STRAW_MAN
  haveDbEntry = !(folder.isEmpty side)

--------------------------------------------------------------------------------
-- One-way direction resolver (`Redetermine`)
--------------------------------------------------------------------------------

/-- The one-side-only file category for a side. -/
def fileOneSideOnlyCat : Side → CompareFileResult
  | Side.left  => CompareFileResult.FILE_LEFT_SIDE_ONLY
  | Side.right => CompareFileResult.FILE_RIGHT_SIDE_ONLY

/-- The one-side-only folder category for a side. -/
def dirOneSideOnlyCat : Side → CompareDirResult
  | Side.left  => CompareDirResult.DIR_LEFT_SIDE_ONLY
  | Side.right => CompareDirResult.DIR_RIGHT_SIDE_ONLY

/-- The one-side-only symlink category for a side. -/
def linkOneSideOnlyCat : Side → CompareSymlinkResult
  | Side.left  => CompareSymlinkResult.SYMLINK_LEFT_SIDE_ONLY
  | Side.right => CompareSymlinkResult.SYMLINK_RIGHT_SIDE_ONLY

/-- The `SyncDirection` pointing at a side. -/
def dirToward : Side → SyncDirection
  | Side.left  => SyncDirection.left
  | Side.right => SyncDirection.right

/-- `setSyncDirectionImpl(FilePair&, ...)` from the source: set the
direction unless the file categorizes as equal. -/
def setSyncDirectionFile (newDirection : SyncDirection) (file : FilePair) : FilePair :=
  if file.category ≠ CompareFileResult.FILE_EQUAL then
    { file with syncDir := SyncDirState.dir newDirection }
  else file

/-- `setSyncDirectionImpl(SymlinkPair&, ...)` from the source. -/
def setSyncDirectionLink (newDirection : SyncDirection) (symlink : SymlinkPair) : SymlinkPair :=
  if symlink.category ≠ CompareSymlinkResult.SYMLINK_EQUAL then
    { symlink with syncDir := SyncDirState.dir newDirection }
  else symlink

mutual

/-- `setSyncDirectionImpl(FolderPair&, ...)` from the source: set the
direction on the folder (unless equal) and on all its descendants. -/
def setSyncDirectionFolder (newDirection : SyncDirection) : FolderTree → FolderTree
  | FolderTree.node d files links subs =>
      let d' := if d.category ≠ CompareDirResult.DIR_EQUAL then
                  { d with syncDir := SyncDirState.dir newDirection }
                else d
      FolderTree.node d'
        (files.map (setSyncDirectionFile newDirection))
        (links.map (setSyncDirectionLink newDirection))
        (setSyncDirectionFolderList newDirection subs)

/-- `setSyncDirectionImpl` over a subfolder list. -/
def setSyncDirectionFolderList (newDirection : SyncDirection) : List FolderTree → List FolderTree
  | [] => []
  | t :: ts => setSyncDirectionFolder newDirection t :: setSyncDirectionFolderList newDirection ts

end

/-- `Redetermine::processFile` from the source (one-way policy mode). -/
def redetermineFile (dirCfg : DirectionSet) (file : FilePair) : FilePair :=
  let cat := file.category
  if cat = CompareFileResult.FILE_LEFT_SIDE_ONLY ∧ zEndsWith (file.itemName Side.left) TEMP_FILE_ENDING then
    { file with syncDir := SyncDirState.dir SyncDirection.left }
  else if cat = CompareFileResult.FILE_RIGHT_SIDE_ONLY ∧ zEndsWith (file.itemName Side.right) TEMP_FILE_ENDING then
    { file with syncDir := SyncDirState.dir SyncDirection.right }
  else
    match cat with
    | CompareFileResult.FILE_LEFT_SIDE_ONLY =>
        { file with syncDir := SyncDirState.dir dirCfg.exLeftSideOnly }
    | CompareFileResult.FILE_RIGHT_SIDE_ONLY =>
        { file with syncDir := SyncDirState.dir dirCfg.exRightSideOnly }
    | CompareFileResult.FILE_RIGHT_NEWER =>
        { file with syncDir := SyncDirState.dir dirCfg.rightNewer }
    | CompareFileResult.FILE_LEFT_NEWER =>
        { file with syncDir := SyncDirState.dir dirCfg.leftNewer }
    | CompareFileResult.FILE_DIFFERENT_CONTENT =>
        { file with syncDir := SyncDirState.dir dirCfg.different }
    | CompareFileResult.FILE_CONFLICT =>
        if dirCfg.conflict = SyncDirection.none then
          { file with syncDir := SyncDirState.conflict file.catDescr }
        else { file with syncDir := SyncDirState.dir dirCfg.conflict }
    | CompareFileResult.FILE_DIFFERENT_METADATA =>
        if dirCfg.conflict = SyncDirection.none then
          { file with syncDir := SyncDirState.conflict file.catDescr }
        else { file with syncDir := SyncDirState.dir dirCfg.conflict }
    | CompareFileResult.FILE_EQUAL =>
        { file with syncDir := SyncDirState.dir SyncDirection.none }

/-- `Redetermine::processLink` from the source (note: no temp-file
sweep for symlinks). -/
def redetermineLink (dirCfg : DirectionSet) (symlink : SymlinkPair) : SymlinkPair :=
  match symlink.category with
  | CompareSymlinkResult.SYMLINK_LEFT_SIDE_ONLY =>
      { symlink with syncDir := SyncDirState.dir dirCfg.exLeftSideOnly }
  | CompareSymlinkResult.SYMLINK_RIGHT_SIDE_ONLY =>
      { symlink with syncDir := SyncDirState.dir dirCfg.exRightSideOnly }
  | CompareSymlinkResult.SYMLINK_LEFT_NEWER =>
      { symlink with syncDir := SyncDirState.dir dirCfg.leftNewer }
  | CompareSymlinkResult.SYMLINK_RIGHT_NEWER =>
      { symlink with syncDir := SyncDirState.dir dirCfg.rightNewer }
  | CompareSymlinkResult.SYMLINK_CONFLICT =>
      if dirCfg.conflict = SyncDirection.none then
        { symlink with syncDir := SyncDirState.conflict symlink.catDescr }
      else { symlink with syncDir := SyncDirState.dir dirCfg.conflict }
  | CompareSymlinkResult.SYMLINK_DIFFERENT_METADATA =>
      if dirCfg.conflict = SyncDirection.none then
        { symlink with syncDir := SyncDirState.conflict symlink.catDescr }
      else { symlink with syncDir := SyncDirState.dir dirCfg.conflict }
  | CompareSymlinkResult.SYMLINK_DIFFERENT_CONTENT =>
      { symlink with syncDir := SyncDirState.dir dirCfg.different }
  | CompareSymlinkResult.SYMLINK_EQUAL =>
      { symlink with syncDir := SyncDirState.dir SyncDirection.none }

mutual

/-- `Redetermine::processFolder` from the source. -/
def redetermineFolder (dirCfg : DirectionSet) : FolderTree → FolderTree
  | FolderTree.node d files links subs =>
      let cat := d.category
      if cat = CompareDirResult.DIR_LEFT_SIDE_ONLY ∧ zEndsWith (d.itemName Side.left) TEMP_FILE_ENDING then
        setSyncDirectionFolder SyncDirection.left (FolderTree.node d files links subs)
      else if cat = CompareDirResult.DIR_RIGHT_SIDE_ONLY ∧ zEndsWith (d.itemName Side.right) TEMP_FILE_ENDING then
        setSyncDirectionFolder SyncDirection.right (FolderTree.node d files links subs)
      else
        let d' :=
          match cat with
          | CompareDirResult.DIR_LEFT_SIDE_ONLY =>
              { d with syncDir := SyncDirState.dir dirCfg.exLeftSideOnly }
          | CompareDirResult.DIR_RIGHT_SIDE_ONLY =>
              { d with syncDir := SyncDirState.dir dirCfg.exRightSideOnly }
          | CompareDirResult.DIR_EQUAL =>
              { d with syncDir := SyncDirState.dir SyncDirection.none }
          | CompareDirResult.DIR_CONFLICT =>
              if dirCfg.conflict = SyncDirection.none then
                { d with syncDir := SyncDirState.conflict d.catDescr }
              else { d with syncDir := SyncDirState.dir dirCfg.conflict }
          | CompareDirResult.DIR_DIFFERENT_METADATA =>
              if dirCfg.conflict = SyncDirection.none then
                { d with syncDir := SyncDirState.conflict d.catDescr }
              else { d with syncDir := SyncDirState.dir dirCfg.conflict }
        FolderTree.node d'
          (files.map (redetermineFile dirCfg))
          (links.map (redetermineLink dirCfg))
          (redetermineFolderList dirCfg subs)

/-- `Redetermine::recurse` over a subfolder list. -/
def redetermineFolderList (dirCfg : DirectionSet) : List FolderTree → List FolderTree
  | [] => []
  | t :: ts => redetermineFolder dirCfg t :: redetermineFolderList dirCfg ts

end

/-- `Redetermine::execute`: apply the one-way policy to a container. -/
def redetermineContainer (dirCfg : DirectionSet) (c : ContainerObject) : ContainerObject :=
  { files   := c.files.map (redetermineFile dirCfg)
    links   := c.links.map (redetermineLink dirCfg)
    folders := redetermineFolderList dirCfg c.folders }

--------------------------------------------------------------------------------
-- Two-way (database-driven) direction resolver (`RedetermineTwoWay`)
--------------------------------------------------------------------------------

mutual

/-- Structural equality of database folders; stands in for the C++
pointer comparison `dbFolderL != dbFolderR` (pointer-equal folders are
structurally equal). -/
def InSyncFolder.beq : InSyncFolder → InSyncFolder → Bool
  | InSyncFolder.mk fs ls sub st, InSyncFolder.mk fs' ls' sub' st' =>
      fs == fs' && ls == ls' && InSyncFolder.beqList sub sub' && st == st'

/-- Structural equality of database subfolder lists. -/
def InSyncFolder.beqList : List (String × InSyncFolder) → List (String × InSyncFolder) → Bool
  | [], [] => true
  | (n, f) :: xs, (n', f') :: ys => n == n' && InSyncFolder.beq f f' && InSyncFolder.beqList xs ys
  | _, _ => false

end

/-- Equality of the optional database folder pointers. -/
def optionFolderBeq : Option InSyncFolder → Option InSyncFolder → Bool
  | none, none => true
  | some a, some b => InSyncFolder.beq a b
  | _, _ => false

/-- Parameters of the two-way resolver and of the move detector: the
base pair's comparison variant, tolerance and time-shift whitelist,
plus `getUnicodeNormalForm`.  The latter is only declared in the
sources (`zstring.h`), so it stays an abstract parameter. -/
structure TwoWayParams where
  cmpVar : CompareVariant
  fileTimeTolerance : Int
  ignoreTimeShiftMinutes : List Nat
  norm : String → String

/-- `getDbEntry` for files: look the name up in the database folder's
file map (keys compare by Unicode normal form, cf. `LessUnicodeNormal`). -/
def dbLookupFile (norm : String → String) (dbFolder : Option InSyncFolder)
    (fileName : String) : Option InSyncFile :=
  match dbFolder with
  | none => none
  | some db => (db.files.find? fun kv => norm kv.1 = norm fileName).map Prod.snd

/-- `getDbEntry` for symlinks. -/
def dbLookupLink (norm : String → String) (dbFolder : Option InSyncFolder)
    (linkName : String) : Option InSyncSymlink :=
  match dbFolder with
  | none => none
  | some db => (db.symlinks.find? fun kv => norm kv.1 = norm linkName).map Prod.snd

/-- `getDbEntry` for subfolders. -/
def dbLookupFolder (norm : String → String) (dbFolder : Option InSyncFolder)
    (folderName : String) : Option InSyncFolder :=
  match dbFolder with
  | none => none
  | some db => (db.folders.find? fun kv => norm kv.1 = norm folderName).map Prod.snd

/-- The "database record not still in sync" test
`dbEntry && !stillInSync(*dbEntry)` of the two-way resolver, on file
entries. -/
def staleDbFile (P : TwoWayParams) : Option InSyncFile → Bool
  | some e => ! stillInSyncFile e P.cmpVar P.fileTimeTolerance P.ignoreTimeShiftMinutes
  | none => false

/-- The stale-record test on symlink entries. -/
def staleDbLink (P : TwoWayParams) : Option InSyncSymlink → Bool
  | some e => ! stillInSyncLink e P.cmpVar P.fileTimeTolerance P.ignoreTimeShiftMinutes
  | none => false

/-- The stale-record test on folder entries. -/
def staleDbFolder : Option InSyncFolder → Bool
  | some e => ! stillInSyncFolder e
  | none => false

/-- The per-side database entries consulted by
`RedetermineTwoWay::processFile`: look up by the left name; redo the
lookup with the right name only when the folder pointers differ or the
two sides' names have different normal forms. -/
def twoWayDbFilePair (P : TwoWayParams) (dbFolderL dbFolderR : Option InSyncFolder)
    (file : FilePair) : Option InSyncFile × Option InSyncFile :=
  let dbEntryL := dbLookupFile P.norm dbFolderL (file.itemName Side.left)
  let dbEntryR :=
    if ¬ optionFolderBeq dbFolderL dbFolderR ∨
        P.norm (file.itemName Side.left) ≠ P.norm (file.itemName Side.right) then
      dbLookupFile P.norm dbFolderR (file.itemName Side.right)
    else dbEntryL
  (dbEntryL, dbEntryR)

/-- The per-side database entries consulted by
`RedetermineTwoWay::processSymlink`. -/
def twoWayDbLinkPair (P : TwoWayParams) (dbFolderL dbFolderR : Option InSyncFolder)
    (symlink : SymlinkPair) : Option InSyncSymlink × Option InSyncSymlink :=
  let dbEntryL := dbLookupLink P.norm dbFolderL (symlink.itemName Side.left)
  let dbEntryR :=
    if ¬ optionFolderBeq dbFolderL dbFolderR ∨
        P.norm (symlink.itemName Side.left) ≠ P.norm (symlink.itemName Side.right) then
      dbLookupLink P.norm dbFolderR (symlink.itemName Side.right)
    else dbEntryL
  (dbEntryL, dbEntryR)

/-- The per-side database entries consulted by
`RedetermineTwoWay::processDir`. -/
def twoWayDbFolderPair (P : TwoWayParams) (dbFolderL dbFolderR : Option InSyncFolder)
    (d : FolderData) : Option InSyncFolder × Option InSyncFolder :=
  let dbEntryL := dbLookupFolder P.norm dbFolderL (d.itemName Side.left)
  let dbEntryR :=
    if ¬ optionFolderBeq dbFolderL dbFolderR ∨
        P.norm (d.itemName Side.left) ≠ P.norm (d.itemName Side.right) then
      dbLookupFolder P.norm dbFolderR (d.itemName Side.right)
    else dbEntryL
  (dbEntryL, dbEntryR)

/-- `"Both sides have changed since last synchronization."`. -/
def txtBothSidesChanged : String := "Both sides have changed since last synchronization."

/-- `"Cannot determine sync-direction: No change since last synchronization."`. -/
def txtNoSideChanged : String := "Cannot determine sync-direction: No change since last synchronization."

/-- `"Cannot determine sync-direction: The database entry is not in sync considering current settings."`. -/
def txtDbNotInSync : String := "Cannot determine sync-direction: The database entry is not in sync considering current settings."

/-- `RedetermineTwoWay::processFile` from the source. -/
def twoWayFile (P : TwoWayParams) (dbFolderL dbFolderR : Option InSyncFolder)
    (file : FilePair) : FilePair :=
  let cat := file.category
  if cat = CompareFileResult.FILE_EQUAL then file
  else if cat = CompareFileResult.FILE_LEFT_SIDE_ONLY ∧
      zEndsWith (file.itemName Side.left) TEMP_FILE_ENDING then
    { file with syncDir := SyncDirState.dir SyncDirection.left }
  else if cat = CompareFileResult.FILE_RIGHT_SIDE_ONLY ∧
      zEndsWith (file.itemName Side.right) TEMP_FILE_ENDING then
    { file with syncDir := SyncDirState.dir SyncDirection.right }
  else
    let (dbEntryL, dbEntryR) := twoWayDbFilePair P dbFolderL dbFolderR file
    let changeOnLeft  := ! matchesDbEntryFile Side.left  file dbEntryL P.ignoreTimeShiftMinutes
    let changeOnRight := ! matchesDbEntryFile Side.right file dbEntryR P.ignoreTimeShiftMinutes
    let staleL := staleDbFile P dbEntryL
    let staleR := staleDbFile P dbEntryR
    if changeOnLeft ≠ changeOnRight then
      if staleL || staleR then
        { file with syncDir := SyncDirState.conflict txtDbNotInSync }
      else
        let d := if changeOnLeft then SyncDirection.right else SyncDirection.left
        { file with syncDir := SyncDirState.dir d }
    else
      if changeOnLeft then { file with syncDir := SyncDirState.conflict txtBothSidesChanged }
      else { file with syncDir := SyncDirState.conflict txtNoSideChanged }

/-- `RedetermineTwoWay::processSymlink` from the source (note: no
temp-file sweep for symlinks). -/
def twoWaySymlink (P : TwoWayParams) (dbFolderL dbFolderR : Option InSyncFolder)
    (symlink : SymlinkPair) : SymlinkPair :=
  let cat := symlink.category
  if cat = CompareSymlinkResult.SYMLINK_EQUAL then symlink
  else
    let (dbEntryL, dbEntryR) := twoWayDbLinkPair P dbFolderL dbFolderR symlink
    let changeOnLeft  := ! matchesDbEntryLink Side.left  symlink dbEntryL P.ignoreTimeShiftMinutes
    let changeOnRight := ! matchesDbEntryLink Side.right symlink dbEntryR P.ignoreTimeShiftMinutes
    let staleL := staleDbLink P dbEntryL
    let staleR := staleDbLink P dbEntryR
    if changeOnLeft ≠ changeOnRight then
      if staleL || staleR then
        { symlink with syncDir := SyncDirState.conflict txtDbNotInSync }
      else
        let d := if changeOnLeft then SyncDirection.right else SyncDirection.left
        { symlink with syncDir := SyncDirState.dir d }
    else
      if changeOnLeft then { symlink with syncDir := SyncDirState.conflict txtBothSidesChanged }
      else { symlink with syncDir := SyncDirState.conflict txtNoSideChanged }

/-- The direction update of `RedetermineTwoWay::processDir` on the
folder's own data (the part before the recursion). -/
def twoWayDirData (d : FolderData)
    (dbEntryL dbEntryR : Option InSyncFolder) : FolderData :=
  if d.category ≠ CompareDirResult.DIR_EQUAL then
    let changeOnLeft  := ! matchesDbEntryFolder Side.left  d dbEntryL
    let changeOnRight := ! matchesDbEntryFolder Side.right d dbEntryR
    let staleL := staleDbFolder dbEntryL
    let staleR := staleDbFolder dbEntryR
    if changeOnLeft ≠ changeOnRight then
      if staleL || staleR then
        { d with syncDir := SyncDirState.conflict txtDbNotInSync }
      else
        let dd := if changeOnLeft then SyncDirection.right else SyncDirection.left
        { d with syncDir := SyncDirState.dir dd }
    else
      if changeOnLeft then { d with syncDir := SyncDirState.conflict txtBothSidesChanged }
      else { d with syncDir := SyncDirState.conflict txtNoSideChanged }
  else d

mutual

/-- `RedetermineTwoWay::processDir` from the source. -/
def twoWayDir (P : TwoWayParams) (dbFolderL dbFolderR : Option InSyncFolder) :
    FolderTree → FolderTree
  | FolderTree.node d files links subs =>
      let cat := d.category
      if cat = CompareDirResult.DIR_LEFT_SIDE_ONLY ∧
          zEndsWith (d.itemName Side.left) TEMP_FILE_ENDING then
        setSyncDirectionFolder SyncDirection.left (FolderTree.node d files links subs)
      else if cat = CompareDirResult.DIR_RIGHT_SIDE_ONLY ∧
          zEndsWith (d.itemName Side.right) TEMP_FILE_ENDING then
        setSyncDirectionFolder SyncDirection.right (FolderTree.node d files links subs)
      else
        let (dbEntryL, dbEntryR) := twoWayDbFolderPair P dbFolderL dbFolderR d
        FolderTree.node (twoWayDirData d dbEntryL dbEntryR)
          (files.map (twoWayFile P dbEntryL dbEntryR))
          (links.map (twoWaySymlink P dbEntryL dbEntryR))
          (twoWayDirList P dbEntryL dbEntryR subs)

/-- `RedetermineTwoWay::recurse` over a subfolder list. -/
def twoWayDirList (P : TwoWayParams) (dbFolderL dbFolderR : Option InSyncFolder) :
    List FolderTree → List FolderTree
  | [] => []
  | t :: ts => twoWayDir P dbFolderL dbFolderR t :: twoWayDirList P dbFolderL dbFolderR ts

end

/-- `RedetermineTwoWay::execute`: run the two-way resolver on a base
folder pair against the last-sync database root. -/
def twoWayContainer (P : TwoWayParams) (dbFolder : InSyncFolder) (c : ContainerObject) :
    ContainerObject :=
  { files   := c.files.map (twoWayFile P (some dbFolder) (some dbFolder))
    links   := c.links.map (twoWaySymlink P (some dbFolder) (some dbFolder))
    folders := twoWayDirList P (some dbFolder) (some dbFolder) c.folders }

--------------------------------------------------------------------------------
-- Move detector (`DetectMovedFiles`)
--------------------------------------------------------------------------------

/-- `DetectMovedFiles::sameSizeAndDate<side>` from the source: *exact*
size and modification-time equality against the database record — the
FAT precision tolerance is deliberately not applied here. -/
def sameSizeAndDate (side : Side) (file : FilePair) (dbFile : InSyncFile) : Bool :=
  file.getFileSize side = dbFile.fileSize &&
  file.getLastWriteTime side = (dbFile.descr side).modTime

/-- The sort key relation used by `purgeDuplicates`: order by the
side's file print. -/
def printLE (side : Side) (a b : FilePair) : Prop :=
  a.getFilePrint side ≤ b.getFilePrint side

instance (side : Side) : DecidableRel (printLE side) :=
  fun a b => Nat.decLe (a.getFilePrint side) (b.getFilePrint side)

instance (side : Side) : IsTotal FilePair (printLE side) :=
  ⟨fun a b => Nat.le_total (a.getFilePrint side) (b.getFilePrint side)⟩

instance (side : Side) : IsTrans FilePair (printLE side) :=
  ⟨fun _ _ _ => Nat.le_trans⟩

/-- `std::sort` of the candidate list by file print. -/
def sortFilesByPrint (side : Side) (files : List FilePair) : List FilePair :=
  List.insertionSort (printLE side) files

/-- Emit one maximal run of equal prints: a run of length ≥ 2 has all
its members' prints cleared (`clearFilePrint`), a singleton is kept. -/
def emitRun (side : Side) (cur : FilePair) (run : List FilePair) : List FilePair :=
  if run.isEmpty then [cur]
  else (cur :: run.reverse).map fun f => f.clearFilePrint side

/-- The duplicate-clearing pass of `purgeDuplicates` over the sorted
list: walk maximal runs of equal prints, clearing every member of each
run of length ≥ 2 (`run` accumulates, in reverse, the duplicates of
`cur` seen so far). -/
def purgeRunsAux (side : Side) (cur : FilePair) (run : List FilePair) :
    List FilePair → List FilePair
  | [] => emitRun side cur run
  | g :: rest =>
      if g.getFilePrint side = cur.getFilePrint side then
        purgeRunsAux side cur (g :: run) rest
      else
        emitRun side cur run ++ purgeRunsAux side g [] rest

/-- The sort + duplicate-clearing part of
`DetectMovedFiles::purgeDuplicates<side>`. -/
def purgeDuplicates (side : Side) (files : List FilePair) : List FilePair :=
  match sortFilesByPrint side files with
  | [] => []
  | f :: rest => purgeRunsAux side f [] rest

/-- The candidate-collection part of `purgeDuplicates<side>`: the
remaining one-side-only files with a non-zero print become the
ID-indexed candidates (association list = `unordered_map` with
first-emplace-wins lookup). -/
def collectCandidatesById (side : Side) (purged : List FilePair) : List (Nat × FilePair) :=
  purged.filterMap fun file =>
    if file.category = fileOneSideOnlyCat side ∧ file.getFilePrint side ≠ 0 then
      some (file.getFilePrint side, file)
    else none

/-- `DetectMovedFiles::getAssocFilePair<side>` from the source: path
association has priority; only without one is the entry looked up by
its (non-zero) file print. -/
def getAssocFilePair (side : Side) (exOneSideByPath : List (InSyncFile × FilePair))
    (exOneSideById : List (Nat × FilePair)) (dbFile : InSyncFile) : Option FilePair :=
  match exOneSideByPath.find? fun kv => kv.1 = dbFile with
  | some kv => some kv.2
  | none =>
      let filePrint := (dbFile.descr side).filePrint
      if filePrint ≠ 0 then
        match exOneSideById.find? fun kv => kv.1 = filePrint with
        | some kv => some kv.2
        | none => none
      else none

/-- `DetectMovedFiles::findAndSetMovePair` from the source: returns the
two files linked into a move pair (with mutual move references set), or
`none` when no link is made. -/
def findAndSetMovePair (P : TwoWayParams)
    (exLeftOnlyByPath exRightOnlyByPath : List (InSyncFile × FilePair))
    (exLeftOnlyById exRightOnlyById : List (Nat × FilePair))
    (dbFile : InSyncFile) : Option (FilePair × FilePair) :=
  if stillInSyncFile dbFile P.cmpVar P.fileTimeTolerance P.ignoreTimeShiftMinutes then
    match getAssocFilePair Side.left exLeftOnlyByPath exLeftOnlyById dbFile with
    | none => none
    | some fileLeftOnly =>
        if sameSizeAndDate Side.left fileLeftOnly dbFile then
          match getAssocFilePair Side.right exRightOnlyByPath exRightOnlyById dbFile with
          | none => none
          | some fileRightOnly =>
              if sameSizeAndDate Side.right fileRightOnly dbFile then
                if fileLeftOnly.moveRef = none ∧ fileRightOnly.moveRef = none then
                  some ({ fileLeftOnly  with moveRef := some fileRightOnly.id },
                        { fileRightOnly with moveRef := some fileLeftOnly.id })
                else none
              else none
        else none
  else none

--------------------------------------------------------------------------------
-- Filter engine
--------------------------------------------------------------------------------

/-- `FilterStrategy` from the source. -/
inductive FilterStrategy where
  | STRATEGY_SET
  | STRATEGY_AND
deriving DecidableEq, Repr

/-- `Eval<strategy>::process` on a file. -/
def evalProcessFile : FilterStrategy → FilePair → Bool
  | FilterStrategy.STRATEGY_SET, _ => true
  | FilterStrategy.STRATEGY_AND, f => f.active

/-- `Eval<strategy>::process` on a symlink. -/
def evalProcessLink : FilterStrategy → SymlinkPair → Bool
  | FilterStrategy.STRATEGY_SET, _ => true
  | FilterStrategy.STRATEGY_AND, s => s.active

/-- `Eval<strategy>::process` on a folder. -/
def evalProcessDir : FilterStrategy → FolderData → Bool
  | FilterStrategy.STRATEGY_SET, _ => true
  | FilterStrategy.STRATEGY_AND, d => d.active

/-- `PathFilter` (hard, path-based filter): per relative path, a file
verdict and a folder verdict with the `childItemMightMatch` hint. -/
structure PathFilter where
  passFileFilter : String → Bool
  passDirFilter  : String → Bool × Bool

/-- `SoftFilter` (time/size filter): time range, size range and the
folder-match flag. -/
structure SoftFilter where
  matchTime   : Int → Bool
  matchSize   : Nat → Bool
  matchFolder : Bool

mutual

/-- `inOrExcludeAllRows<include>` on a subfolder: sets the folder's own
active flag and that of all its descendants. -/
def inOrExcludeTree (inc : Bool) : FolderTree → FolderTree
  | FolderTree.node d files links subs =>
      FolderTree.node { d with active := inc }
        (files.map fun f => { f with active := inc })
        (links.map fun l => { l with active := inc })
        (inOrExcludeTreeList inc subs)

/-- `inOrExcludeAllRows<include>` over a subfolder list. -/
def inOrExcludeTreeList (inc : Bool) : List FolderTree → List FolderTree
  | [] => []
  | t :: ts => inOrExcludeTree inc t :: inOrExcludeTreeList inc ts

end

/-- `ApplyHardFilter::processFile` from the source. -/
def applyHardFile (strategy : FilterStrategy) (filterProc : PathFilter) (file : FilePair) :
    FilePair :=
  if evalProcessFile strategy file then
    { file with active := filterProc.passFileFilter file.relPathAny }
  else file

/-- `ApplyHardFilter::processLink` from the source. -/
def applyHardLink (strategy : FilterStrategy) (filterProc : PathFilter) (symlink : SymlinkPair) :
    SymlinkPair :=
  if evalProcessLink strategy symlink then
    { symlink with active := filterProc.passFileFilter symlink.relPathAny }
  else symlink

mutual

/-- `ApplyHardFilter::processDir` from the source: evaluate the folder
filter; when `childItemMightMatch` is false, exclude all rows below and
stop recursing. -/
def applyHardDir (strategy : FilterStrategy) (filterProc : PathFilter) :
    FolderTree → FolderTree
  | FolderTree.node d files links subs =>
      let verdict := filterProc.passDirFilter d.relPathAny
      let d' := if evalProcessDir strategy d then { d with active := verdict.1 } else d
      if !verdict.2 then
        FolderTree.node d'
          (files.map fun f => { f with active := false })
          (links.map fun l => { l with active := false })
          (inOrExcludeTreeList false subs)
      else
        FolderTree.node d'
          (files.map (applyHardFile strategy filterProc))
          (links.map (applyHardLink strategy filterProc))
          (applyHardDirList strategy filterProc subs)

/-- `ApplyHardFilter::recurse` over a subfolder list. -/
def applyHardDirList (strategy : FilterStrategy) (filterProc : PathFilter) :
    List FolderTree → List FolderTree
  | [] => []
  | t :: ts => applyHardDir strategy filterProc t :: applyHardDirList strategy filterProc ts

end

/-- `ApplyHardFilter::execute` on a container. -/
def applyHardContainer (strategy : FilterStrategy) (filterProc : PathFilter)
    (c : ContainerObject) : ContainerObject :=
  { files   := c.files.map (applyHardFile strategy filterProc)
    links   := c.links.map (applyHardLink strategy filterProc)
    folders := applyHardDirList strategy filterProc c.folders }

/-- `ApplySoftFilter::processFile` from the source. -/
def applySoftFile (strategy : FilterStrategy) (timeSizeFilter : SoftFilter) (file : FilePair) :
    FilePair :=
  if evalProcessFile strategy file then
    if file.isEmpty Side.left then
      { file with active :=
          timeSizeFilter.matchSize (file.getFileSize Side.right) &&
          timeSizeFilter.matchTime (file.getLastWriteTime Side.right) }
    else if file.isEmpty Side.right then
      { file with active :=
          timeSizeFilter.matchSize (file.getFileSize Side.left) &&
          timeSizeFilter.matchTime (file.getLastWriteTime Side.left) }
    else
      { file with active :=
          (timeSizeFilter.matchSize (file.getFileSize Side.right) &&
           timeSizeFilter.matchTime (file.getLastWriteTime Side.right)) ||
          (timeSizeFilter.matchSize (file.getFileSize Side.left) &&
           timeSizeFilter.matchTime (file.getLastWriteTime Side.left)) }
  else file

/-- `ApplySoftFilter::processLink` from the source. -/
def applySoftLink (strategy : FilterStrategy) (timeSizeFilter : SoftFilter)
    (symlink : SymlinkPair) : SymlinkPair :=
  if evalProcessLink strategy symlink then
    if symlink.isEmpty Side.left then
      { symlink with active := timeSizeFilter.matchTime (symlink.getLastWriteTime Side.right) }
    else if symlink.isEmpty Side.right then
      { symlink with active := timeSizeFilter.matchTime (symlink.getLastWriteTime Side.left) }
    else
      { symlink with active :=
          timeSizeFilter.matchTime (symlink.getLastWriteTime Side.right) ||
          timeSizeFilter.matchTime (symlink.getLastWriteTime Side.left) }
  else symlink

mutual

/-- `ApplySoftFilter::processDir` from the source: a folder's active
flag is set to the filter's folder-match flag; recursion continues. -/
def applySoftDir (strategy : FilterStrategy) (timeSizeFilter : SoftFilter) :
    FolderTree → FolderTree
  | FolderTree.node d files links subs =>
      let d' := if evalProcessDir strategy d then
                  { d with active := timeSizeFilter.matchFolder }
                else d
      FolderTree.node d'
        (files.map (applySoftFile strategy timeSizeFilter))
        (links.map (applySoftLink strategy timeSizeFilter))
        (applySoftDirList strategy timeSizeFilter subs)

/-- `ApplySoftFilter::recurse` over a subfolder list. -/
def applySoftDirList (strategy : FilterStrategy) (timeSizeFilter : SoftFilter) :
    List FolderTree → List FolderTree
  | [] => []
  | t :: ts => applySoftDir strategy timeSizeFilter t :: applySoftDirList strategy timeSizeFilter ts

end

/-- `ApplySoftFilter::execute` on a container. -/
def applySoftContainer (strategy : FilterStrategy) (timeSizeFilter : SoftFilter)
    (c : ContainerObject) : ContainerObject :=
  { files   := c.files.map (applySoftFile strategy timeSizeFilter)
    links   := c.links.map (applySoftLink strategy timeSizeFilter)
    folders := applySoftDirList strategy timeSizeFilter c.folders }

--------------------------------------------------------------------------------
-- `zen::copyNewFile` (file_access.cpp)
--------------------------------------------------------------------------------

/-- Error kinds thrown by `copyNewFile`. -/
inductive CopyError where
  | fileError (msg : String)
  | errorTargetExisting (msg : String)
deriving DecidableEq, Repr

/-- `FileCopyResult` from `file_access.h`. -/
structure FileCopyResult where
  fileSize      : Nat
  sourceModTime : Int
  sourceFileIdx : Nat
  targetFileIdx : Nat
  errorModTime  : Option String
deriving DecidableEq, Repr

/-- Observable actions of `copyNewFile` on the target file, in program
order. -/
inductive FsEvent where
  | createdTarget
  | wroteTargetData
  | closedTarget
  | triedSetModTime
  | removedTarget
deriving DecidableEq, Repr

/-- Outcomes of the individual system-level steps of `copyNewFile`:
each field is `none`/`false` when the step succeeds.  The stateful C++
code is embedded by passing these outcomes explicitly. -/
structure CopyNewFileEnv where
  srcOpenError    : Option String
  srcStatError    : Option String
  targetExists    : Bool
  targetOpenError : Option String
  reserveError    : Option String
  copyError       : Option String
  flushError      : Option String
  tgtStatError    : Option String
  finalizeError   : Option String
  setModTimeError : Option String
  srcSize         : Nat
  srcModTime      : Int
  srcFileIdx      : Nat
  tgtFileIdx      : Nat
deriving DecidableEq, Repr

/-- `zen::copyNewFile` from the source: open source, `fstat` it, open
the target with `O_CREAT | O_EXCL` (an existing target raises
`ErrorTargetExisting`), preallocate, stream-copy, flush, `fstat` the
target, close it, and only then try to set the target's modification
time; a failure of that last step is recorded in
`FileCopyResult::errorModTime` instead of being thrown.  Returns the
outcome together with the trace of target-file actions. -/
def copyNewFile (env : CopyNewFileEnv) : Except CopyError FileCopyResult × List FsEvent :=
  match env.srcOpenError with
  | some m => (Except.error (CopyError.fileError m), [])
  | none =>
  match env.srcStatError with
  | some m => (Except.error (CopyError.fileError m), [])
  | none =>
  if env.targetExists then
    (Except.error (CopyError.errorTargetExisting "Cannot write file: target already existing"), [])
  else
  match env.targetOpenError with
  | some m => (Except.error (CopyError.fileError m), [])
  | none =>
  match env.reserveError with
  | some m => (Except.error (CopyError.fileError m), [FsEvent.createdTarget])
  | none =>
  match env.copyError with
  | some m => (Except.error (CopyError.fileError m), [FsEvent.createdTarget])
  | none =>
  match env.flushError with
  | some m =>
      (Except.error (CopyError.fileError m), [FsEvent.createdTarget, FsEvent.wroteTargetData])
  | none =>
  match env.tgtStatError with
  | some m =>
      (Except.error (CopyError.fileError m), [FsEvent.createdTarget, FsEvent.wroteTargetData])
  | none =>
  match env.finalizeError with
  | some m =>
      (Except.error (CopyError.fileError m), [FsEvent.createdTarget, FsEvent.wroteTargetData])
  | none =>
  (Except.ok
    { fileSize      := env.srcSize
      sourceModTime := env.srcModTime
      sourceFileIdx := env.srcFileIdx
      targetFileIdx := env.tgtFileIdx
      errorModTime  := env.setModTimeError },
   [FsEvent.createdTarget, FsEvent.wroteTargetData, FsEvent.closedTarget,
    FsEvent.triedSetModTime])

--------------------------------------------------------------------------------
-- `zen::itemStillExists` (file_access.cpp)
--------------------------------------------------------------------------------

/-- `ItemType` from `file_access.h`. -/
inductive ItemType where
  | file
  | folder
  | symlink
deriving DecidableEq, Repr

/-- `FileError` as far as `itemStillExists` observes it: the carried
message. -/
structure FileError where
  msg : String
deriving DecidableEq, Repr

/-- The filesystem as seen by `itemStillExists`.  A path is the list of
its name components, deepest first (the device root is `[]`);
`itemType` embeds `getItemType`, `listing` embeds `traverseFolder`. -/
structure ItemEnv where
  itemType : List String → Except FileError ItemType
  listing  : List String → Except FileError (List (String × ItemType))

/-- `zen::itemStillExists` from the source: try the fast type query;
on failure re-raise at a device root, otherwise recursively check the
parent and — when the parent exists and is not a file — traverse it
case-sensitively; finding the item's name after the type query failed
is reported as a "Temporary access error", finding nothing means
"definitely not existing". -/
def itemStillExists (env : ItemEnv) : List String → Except FileError (Option ItemType)
  | [] =>
    match env.itemType [] with
    | Except.ok t => Except.ok (some t)
    | Except.error e => Except.error e
  | itemName :: parentPath =>
    match env.itemType (itemName :: parentPath) with
    | Except.ok t => Except.ok (some t)
    | Except.error e =>
        match itemStillExists env parentPath with
        | Except.error e2 => Except.error e2
        | Except.ok parentType =>
            match parentType with
            | some t =>
                if t ≠ ItemType.file then
                  match env.listing parentPath with
                  | Except.error e3 => Except.error e3
                  | Except.ok entries =>
                      if entries.any fun kv => kv.1 = itemName then
                        Except.error ⟨"Temporary access error: " ++ e.msg⟩
                      else Except.ok none
                else Except.ok none
            | none => Except.ok none

--------------------------------------------------------------------------------
-- Observation predicates used by the theorems
--------------------------------------------------------------------------------

/-- The own data of a folder subtree's root node. -/
def FolderTree.rootData : FolderTree → FolderData
  | FolderTree.node d _ _ _ => d

mutual

/-- Every item of the subtree (the root folder included) is
inactive. -/
def treeAllInactive : FolderTree → Bool
  | FolderTree.node d fs ls subs =>
      !d.active && fs.all (fun f => !f.active) && ls.all (fun l => !l.active) &&
      listAllInactive subs

/-- Every item of every subtree in the list is inactive. -/
def listAllInactive : List FolderTree → Bool
  | [] => true
  | t :: ts => treeAllInactive t && listAllInactive ts

end

/-- Every strict descendant of the folder is inactive (the folder's own
flag is not constrained). -/
def childrenInactive : FolderTree → Bool
  | FolderTree.node _ fs ls subs =>
      fs.all (fun f => !f.active) && ls.all (fun l => !l.active) && listAllInactive subs

mutual

/-- Every item of the subtree (root included) that does not categorize
as equal carries the given direction state. -/
def treeDirSet (ds : SyncDirState) : FolderTree → Bool
  | FolderTree.node d fs ls subs =>
      (d.category == CompareDirResult.DIR_EQUAL || d.syncDir == ds) &&
      fs.all (fun f => f.category == CompareFileResult.FILE_EQUAL || f.syncDir == ds) &&
      ls.all (fun l => l.category == CompareSymlinkResult.SYMLINK_EQUAL || l.syncDir == ds) &&
      listDirSet ds subs

/-- `treeDirSet` over a subtree list. -/
def listDirSet (ds : SyncDirState) : List FolderTree → Bool
  | [] => true
  | t :: ts => treeDirSet ds t && listDirSet ds ts

end

--------------------------------------------------------------------------------
-- Concrete test data (used by witnesses and counterexamples)
--------------------------------------------------------------------------------

/-- An environment whose type query fails everywhere (used for the
device-root clause). -/
def envRootW : ItemEnv :=
  { itemType := fun _ => Except.error { msg := "io error" },
    listing := fun _ => Except.ok [] }

/-- An environment where the root is fine but the type query fails
below it, while the root listing still shows the item `x`. -/
def envFoundW : ItemEnv :=
  { itemType := fun p =>
      if p = [] then Except.ok ItemType.folder else Except.error { msg := "eAccess" },
    listing := fun _ => Except.ok [("x", ItemType.file)] }

/-- A left-only symlink whose name carries the reserved temporary
suffix. -/
def symTempW : SymlinkPair :=
  { itemNameL := "e.ffs_tmp", itemNameR := "", relPathAny := "e.ffs_tmp",
    emptyL := false, emptyR := true, modTimeL := 100, modTimeR := 0,
    category := CompareSymlinkResult.SYMLINK_LEFT_SIDE_ONLY, catDescr := "",
    syncDir := SyncDirState.dir SyncDirection.none, active := true }

/-- A one-way policy that copies left-only items to the right. -/
def cfgUpdateW : DirectionSet :=
  { exLeftSideOnly := SyncDirection.right, exRightSideOnly := SyncDirection.left,
    leftNewer := SyncDirection.right, rightNewer := SyncDirection.left,
    different := SyncDirection.none, conflict := SyncDirection.none }

/-- A database file record: both sides size 5, modification time 100,
file print 42, stored under variant time-size. -/
def dbFileW : InSyncFile :=
  { left := { modTime := 100, filePrint := 42 },
    right := { modTime := 100, filePrint := 42 },
    fileSize := 5, cmpVar := CompareVariant.timeSize }

/-- A left-only file matching `dbFileW` on the left side. -/
def candLW : FilePair :=
  { itemNameL := "c.txt", itemNameR := "", relPathAny := "moved/c.txt",
    emptyL := false, emptyR := true,
    modTimeL := 100, modTimeR := 0, fileSizeL := 5, fileSizeR := 0,
    filePrintL := 42, filePrintR := 0, id := 1, moveRef := none,
    category := CompareFileResult.FILE_LEFT_SIDE_ONLY, catDescr := "",
    syncDir := SyncDirState.dir SyncDirection.none, active := true }

/-- A right-only file matching `dbFileW` on the right side. -/
def candRW : FilePair :=
  { itemNameL := "c.txt", itemNameR := "c.txt", relPathAny := "sub/c.txt",
    emptyL := true, emptyR := false,
    modTimeL := 0, modTimeR := 100, fileSizeL := 0, fileSizeR := 5,
    filePrintL := 0, filePrintR := 42, id := 2, moveRef := none,
    category := CompareFileResult.FILE_RIGHT_SIDE_ONLY, catDescr := "",
    syncDir := SyncDirState.dir SyncDirection.none, active := true }

/-- Default two-way parameters: variant time-size, 2 s tolerance, no
time shifts, identity normalization. -/
def twoWayParamsW : TwoWayParams :=
  { cmpVar := CompareVariant.timeSize, fileTimeTolerance := 2,
    ignoreTimeShiftMinutes := [], norm := fun s => s }

/-- A `copyNewFile` environment in which the destination already
exists. -/
def envTargetExistsW : CopyNewFileEnv :=
  { srcOpenError := none, srcStatError := none, targetExists := true,
    targetOpenError := none, reserveError := none, copyError := none,
    flushError := none, tgtStatError := none, finalizeError := none,
    setModTimeError := none, srcSize := 5, srcModTime := 100,
    srcFileIdx := 7, tgtFileIdx := 8 }

/-- A `copyNewFile` environment in which everything succeeds except the
final modification-time update. -/
def envModTimeFailW : CopyNewFileEnv :=
  { srcOpenError := none, srcStatError := none, targetExists := false,
    targetOpenError := none, reserveError := none, copyError := none,
    flushError := none, tgtStatError := none, finalizeError := none,
    setModTimeError := some "utimensat failed", srcSize := 5, srcModTime := 100,
    srcFileIdx := 7, tgtFileIdx := 8 }

/-- An `itemStillExists` environment: the type query fails on `/a/b`,
`/a` is a file, yet the (never consulted) listing of `/a` contains an
entry named `b`. -/
def envItemW : ItemEnv :=
  { itemType := fun p =>
      if p = ["b", "a"] then Except.error { msg := "access denied" }
      else if p = ["a"] then Except.ok ItemType.file
      else Except.ok ItemType.folder,
    listing := fun p =>
      Except.ok (if p = ["a"] then [("b", ItemType.file)] else []) }

/-- A left-only file whose name carries the reserved temporary
suffix. -/
def fileTempW : FilePair :=
  { itemNameL := "e.txt.ffs_tmp", itemNameR := "", relPathAny := "e.txt.ffs_tmp",
    emptyL := false, emptyR := true,
    modTimeL := 100, modTimeR := 0, fileSizeL := 5, fileSizeR := 0,
    filePrintL := 0, filePrintR := 0, id := 3, moveRef := none,
    category := CompareFileResult.FILE_LEFT_SIDE_ONLY, catDescr := "",
    syncDir := SyncDirState.dir SyncDirection.none, active := true }

/-- The data of a left-only folder whose name carries the reserved
temporary suffix. -/
def folderTempDataW : FolderData :=
  { itemNameL := "t.ffs_tmp", itemNameR := "", relPathAny := "t.ffs_tmp",
    emptyL := false, emptyR := true,
    category := CompareDirResult.DIR_LEFT_SIDE_ONLY, catDescr := "",
    syncDir := SyncDirState.dir SyncDirection.none, active := true }

/-- A hard filter that rejects every folder and reports that no child
can match. -/
def pruneFilterW : PathFilter :=
  { passFileFilter := fun _ => true,
    passDirFilter := fun _ => (false, false) }

/-- A hard filter that accepts everything. -/
def acceptFilterW : PathFilter :=
  { passFileFilter := fun _ => true,
    passDirFilter := fun _ => (true, true) }

/-- The data of an active `logs/` folder. -/
def logsFolderDataW : FolderData :=
  { itemNameL := "logs", itemNameR := "logs", relPathAny := "logs",
    emptyL := false, emptyR := false,
    category := CompareDirResult.DIR_EQUAL, catDescr := "",
    syncDir := SyncDirState.dir SyncDirection.none, active := true }

/-- An active file inside `logs/`. -/
def logFileW : FilePair :=
  { itemNameL := "a.log", itemNameR := "a.log", relPathAny := "logs/a.log",
    emptyL := false, emptyR := false,
    modTimeL := 100, modTimeR := 100, fileSizeL := 5, fileSizeR := 5,
    filePrintL := 0, filePrintR := 0, id := 4, moveRef := none,
    category := CompareFileResult.FILE_EQUAL, catDescr := "",
    syncDir := SyncDirState.dir SyncDirection.none, active := true }

/-- An active subtree: `logs/` containing a file, a symlink and an
(empty) active subfolder. -/
def logsTreeW : FolderTree :=
  FolderTree.node logsFolderDataW [logFileW] [symTempW]
    [FolderTree.node logsFolderDataW [logFileW] [] []]

/-- A last-sync database root holding the single file record
`c.txt ↦ dbFileW`. -/
def dbRootW : InSyncFolder :=
  InSyncFolder.mk [("c.txt", dbFileW)] [] [] InSyncDirStatus.DIR_STATUS_NORMAL

/-- A left-only folder named `sub` (no database entry for it). -/
def folderOnlyW : FolderData :=
  { itemNameL := "sub", itemNameR := "sub", relPathAny := "sub",
    emptyL := false, emptyR := true,
    category := CompareDirResult.DIR_LEFT_SIDE_ONLY, catDescr := "",
    syncDir := SyncDirState.dir SyncDirection.none, active := true }

/-- A left-only file with print 42. -/
def dupAW : FilePair := { candLW with id := 10 }

/-- Another left-only file with the same print 42. -/
def dupBW : FilePair := { candLW with itemNameL := "d.txt", id := 11 }

/-- A left-only file with the unique print 7. -/
def uniqW : FilePair := { candLW with id := 12, filePrintL := 7 }

--------------------------------------------------------------------------------
-- Theorems
--------------------------------------------------------------------------------

/-- The symlink still-in-sync predicate as the code actually computes
it (stated over the record's fields; claim C2 amended): a database
variant of content or size is treated alike — under current time-size
such records pass unconditionally, otherwise the time check applies;
under current content and also under current size, the record passes
iff its database variant is content or size. -/
def refStillInSyncLinkAmended (lModTime rModTime : Int) (dbVar curVar : CompareVariant)
    (fileTimeTolerance : Int) (ignoreTimeShiftMinutes : List Nat) : Bool :=
  match curVar with
  | CompareVariant.timeSize =>
      if dbVar = CompareVariant.content ∨ dbVar = CompareVariant.size then true
      else sameFileTime lModTime rModTime fileTimeTolerance ignoreTimeShiftMinutes
  | CompareVariant.content => dbVar = CompareVariant.content ∨ dbVar = CompareVariant.size
  | CompareVariant.size    => dbVar = CompareVariant.content ∨ dbVar = CompareVariant.size

/-- C2, counterexample: the claim's reference definition does not match
the code on symlink database records.  A symlink record stored under
variant time-size, checked under current variant size, fails the code's
`stillInSync` while the reference definition accepts it. -/
theorem ffs_C2_counterexample :
    stillInSyncLink
        { left := { modTime := 0 }, right := { modTime := 0 },
          cmpVar := CompareVariant.timeSize }
        CompareVariant.size 2 [] = false ∧
    refStillInSync 0 0 CompareVariant.timeSize CompareVariant.size 2 [] = true := by
  decide

/-- C2, amended: the reference still-in-sync definition matches the
code exactly on file database records; on symlink records the code
instead treats database variants content and size alike
(`refStillInSyncLinkAmended`). -/
theorem ffs_C2_still_in_sync (dbFile : InSyncFile) (dbLink : InSyncSymlink)
    (curVar : CompareVariant) (fileTimeTolerance : Int) (ignoreTimeShiftMinutes : List Nat) :
    stillInSyncFile dbFile curVar fileTimeTolerance ignoreTimeShiftMinutes =
      refStillInSync dbFile.left.modTime dbFile.right.modTime dbFile.cmpVar curVar
        fileTimeTolerance ignoreTimeShiftMinutes ∧
    stillInSyncLink dbLink curVar fileTimeTolerance ignoreTimeShiftMinutes =
      refStillInSyncLinkAmended dbLink.left.modTime dbLink.right.modTime dbLink.cmpVar curVar
        fileTimeTolerance ignoreTimeShiftMinutes := by
  cases curVar <;>
    simp [stillInSyncFile, refStillInSync, stillInSyncLink, refStillInSyncLinkAmended]

/-- C10: under the soft (time/size) filter, a file present on both
sides that the strategy processes is set active iff at least one single
side matches both the size and the time bound; in particular a file
whose left side matches only the size bound while its right side
matches only the time bound is set inactive. -/
theorem ffs_C10_soft_filter_both_sides (strategy : FilterStrategy) (TF : SoftFilter)
    (file : FilePair)
    (hL : file.isEmpty Side.left = false) (hR : file.isEmpty Side.right = false)
    (hproc : evalProcessFile strategy file = true) :
    ((applySoftFile strategy TF file).active =
      ((TF.matchSize (file.getFileSize Side.right) &&
        TF.matchTime (file.getLastWriteTime Side.right)) ||
       (TF.matchSize (file.getFileSize Side.left) &&
        TF.matchTime (file.getLastWriteTime Side.left)))) ∧
    (TF.matchSize (file.getFileSize Side.left) = true →
     TF.matchTime (file.getLastWriteTime Side.left) = false →
     TF.matchSize (file.getFileSize Side.right) = false →
     TF.matchTime (file.getLastWriteTime Side.right) = true →
     (applySoftFile strategy TF file).active = false) := by
  constructor
  · simp [applySoftFile, hproc, hL, hR]
  · intro h1 h2 h3 h4
    simp [applySoftFile, hproc, hL, hR, h1, h2, h3, h4]

/-- C10, witness: a both-sided file whose left side matches only the
size bound and whose right side matches only the time bound ends up
inactive. -/
theorem ffs_C10_witness :
    (applySoftFile FilterStrategy.STRATEGY_SET
      { matchTime := fun t => t = 7, matchSize := fun s => s = 3, matchFolder := false }
      { itemNameL := "x", itemNameR := "x", relPathAny := "x",
        emptyL := false, emptyR := false,
        modTimeL := 0, modTimeR := 7, fileSizeL := 3, fileSizeR := 9,
        filePrintL := 0, filePrintR := 0, id := 0, moveRef := none,
        category := CompareFileResult.FILE_DIFFERENT_CONTENT, catDescr := "",
        syncDir := SyncDirState.dir SyncDirection.none, active := true }).active = false :=
  (ffs_C10_soft_filter_both_sides FilterStrategy.STRATEGY_SET
      { matchTime := fun t => t = 7, matchSize := fun s => s = 3, matchFolder := false }
      { itemNameL := "x", itemNameR := "x", relPathAny := "x",
        emptyL := false, emptyR := false,
        modTimeL := 0, modTimeR := 7, fileSizeL := 3, fileSizeR := 9,
        filePrintL := 0, filePrintR := 0, id := 0, moveRef := none,
        category := CompareFileResult.FILE_DIFFERENT_CONTENT, catDescr := "",
        syncDir := SyncDirState.dir SyncDirection.none, active := true }
      rfl rfl rfl).2 (by decide) (by decide) (by decide) (by decide)

/-- C4: the move-detector probe prefers the path association (when one
exists the ID index is not consulted at all); without one it looks the
entry up by its file print only when that print is non-zero; and a
candidate pair is linked only when both candidates' size and
modification time equal the database record exactly (no FAT
tolerance). -/
theorem ffs_C4_move_probe :
    (∀ (side : Side) (exByPath : List (InSyncFile × FilePair)) (exById : List (Nat × FilePair))
       (dbFile : InSyncFile) (kv : InSyncFile × FilePair),
       (exByPath.find? fun kv => kv.1 = dbFile) = some kv →
       getAssocFilePair side exByPath exById dbFile = some kv.2) ∧
    (∀ (side : Side) (exByPath : List (InSyncFile × FilePair)) (exById : List (Nat × FilePair))
       (dbFile : InSyncFile),
       (exByPath.find? fun kv => kv.1 = dbFile) = none →
       getAssocFilePair side exByPath exById dbFile =
         (if (dbFile.descr side).filePrint ≠ 0 then
            ((exById.find? fun kv => kv.1 = (dbFile.descr side).filePrint).map Prod.snd)
          else none)) ∧
    (∀ (P : TwoWayParams)
       (exLeftOnlyByPath exRightOnlyByPath : List (InSyncFile × FilePair))
       (exLeftOnlyById exRightOnlyById : List (Nat × FilePair))
       (dbFile : InSyncFile) (l r : FilePair),
       findAndSetMovePair P exLeftOnlyByPath exRightOnlyByPath
         exLeftOnlyById exRightOnlyById dbFile = some (l, r) →
       l.getFileSize Side.left = dbFile.fileSize ∧
       l.getLastWriteTime Side.left = dbFile.left.modTime ∧
       r.getFileSize Side.right = dbFile.fileSize ∧
       r.getLastWriteTime Side.right = dbFile.right.modTime) := by
  refine ⟨?_, ?_, ?_⟩
  · intro side exByPath exById dbFile kv h
    simp [getAssocFilePair, h]
  · intro side exByPath exById dbFile h
    simp only [getAssocFilePair, h]
    split
    · cases hfind : exById.find? fun kv => kv.1 = (dbFile.descr side).filePrint <;>
        simp [hfind]
    · rfl
  · intro P exLeftOnlyByPath exRightOnlyByPath exLeftOnlyById exRightOnlyById dbFile l r h
    unfold findAndSetMovePair at h
    split at h
    · split at h
      · simp at h
      · rename_i fileLeftOnly hL
        split at h
        · rename_i hsL
          split at h
          · simp at h
          · rename_i fileRightOnly hR
            split at h
            · rename_i hsR
              split at h
              · rw [Option.some_inj] at h
                have hl : ({ fileLeftOnly with moveRef := some fileRightOnly.id } : FilePair) = l :=
                  congrArg Prod.fst h
                have hr : ({ fileRightOnly with moveRef := some fileLeftOnly.id } : FilePair) = r :=
                  congrArg Prod.snd h
                subst hl; subst hr
                simp only [sameSizeAndDate, Bool.and_eq_true, decide_eq_true_eq,
                  FilePair.getFileSize, FilePair.getLastWriteTime, InSyncFile.descr] at hsL hsR
                simp only [FilePair.getFileSize, FilePair.getLastWriteTime]
                exact ⟨hsL.1, hsL.2, hsR.1, hsR.2⟩
              · simp at h
            · simp at h
        · simp at h
    · simp at h

/-- C4, witness: on concrete data, the path association wins even when
the ID index maps the print elsewhere; without a path association the
non-zero print is used; and a linked pair has size and time exactly
equal to the database record. -/
theorem ffs_C4_witness :
    getAssocFilePair Side.left [(dbFileW, candLW)] [(42, candRW)] dbFileW = some candLW ∧
    getAssocFilePair Side.left [] [(42, candLW)] dbFileW = some candLW ∧
    (({ candLW with moveRef := some candRW.id } : FilePair).getFileSize Side.left = dbFileW.fileSize ∧
     ({ candLW with moveRef := some candRW.id } : FilePair).getLastWriteTime Side.left = dbFileW.left.modTime ∧
     ({ candRW with moveRef := some candLW.id } : FilePair).getFileSize Side.right = dbFileW.fileSize ∧
     ({ candRW with moveRef := some candLW.id } : FilePair).getLastWriteTime Side.right = dbFileW.right.modTime) := by
  refine ⟨?_, ?_, ?_⟩
  · exact ffs_C4_move_probe.1 Side.left [(dbFileW, candLW)] [(42, candRW)] dbFileW
      (dbFileW, candLW) (by decide)
  · rw [ffs_C4_move_probe.2.1 Side.left [] [(42, candLW)] dbFileW rfl]
    decide
  · exact ffs_C4_move_probe.2.2 twoWayParamsW [(dbFileW, candLW)] [(dbFileW, candRW)] [] []
      dbFileW { candLW with moveRef := some candRW.id } { candRW with moveRef := some candLW.id }
      (by decide)

/-- C8: `copyNewFile` raises `ErrorTargetExisting` when the destination
already exists; and when everything up to and including the close of
the output handle succeeds but setting the modification time fails, it
returns normally with the failure recorded in the result's
`errorModTime` field, the copied file is kept (never removed), and the
modification time is attempted only after the handle was closed. -/
theorem ffs_C8_copy_new_file :
    (∀ env : CopyNewFileEnv, env.srcOpenError = none → env.srcStatError = none →
       env.targetExists = true →
       ∃ m, (copyNewFile env).1 = Except.error (CopyError.errorTargetExisting m)) ∧
    (∀ (env : CopyNewFileEnv) (m : String),
       env.srcOpenError = none → env.srcStatError = none → env.targetExists = false →
       env.targetOpenError = none → env.reserveError = none → env.copyError = none →
       env.flushError = none → env.tgtStatError = none → env.finalizeError = none →
       env.setModTimeError = some m →
       copyNewFile env =
         (Except.ok
           { fileSize := env.srcSize, sourceModTime := env.srcModTime,
             sourceFileIdx := env.srcFileIdx, targetFileIdx := env.tgtFileIdx,
             errorModTime := some m },
          [FsEvent.createdTarget, FsEvent.wroteTargetData, FsEvent.closedTarget,
           FsEvent.triedSetModTime]) ∧
       FsEvent.removedTarget ∉ (copyNewFile env).2 ∧
       (copyNewFile env).2.indexOf FsEvent.closedTarget <
         (copyNewFile env).2.indexOf FsEvent.triedSetModTime) := by
  constructor
  · intro env h1 h2 h3
    refine ⟨"Cannot write file: target already existing", ?_⟩
    simp [copyNewFile, h1, h2, h3]
  · intro env m h1 h2 h3 h4 h5 h6 h7 h8 h9 h10
    have hres : copyNewFile env =
        (Except.ok
          { fileSize := env.srcSize, sourceModTime := env.srcModTime,
            sourceFileIdx := env.srcFileIdx, targetFileIdx := env.tgtFileIdx,
            errorModTime := some m },
         [FsEvent.createdTarget, FsEvent.wroteTargetData, FsEvent.closedTarget,
          FsEvent.triedSetModTime]) := by
      simp [copyNewFile, h1, h2, h3, h4, h5, h6, h7, h8, h9, h10]
    refine ⟨hres, ?_, ?_⟩
    · rw [hres]
      show FsEvent.removedTarget ∉
        [FsEvent.createdTarget, FsEvent.wroteTargetData, FsEvent.closedTarget,
         FsEvent.triedSetModTime]
      decide
    · rw [hres]
      show List.indexOf FsEvent.closedTarget
          [FsEvent.createdTarget, FsEvent.wroteTargetData, FsEvent.closedTarget,
           FsEvent.triedSetModTime] <
        List.indexOf FsEvent.triedSetModTime
          [FsEvent.createdTarget, FsEvent.wroteTargetData, FsEvent.closedTarget,
           FsEvent.triedSetModTime]
      decide

/-- C8, witness: on concrete environments, an existing destination
yields `ErrorTargetExisting`, and a failed modification-time update is
returned in the result with the file kept and the time set after the
close. -/
theorem ffs_C8_witness :
    (∃ m, (copyNewFile envTargetExistsW).1 = Except.error (CopyError.errorTargetExisting m)) ∧
    (copyNewFile envModTimeFailW =
      (Except.ok
        { fileSize := 5, sourceModTime := 100, sourceFileIdx := 7, targetFileIdx := 8,
          errorModTime := some "utimensat failed" },
       [FsEvent.createdTarget, FsEvent.wroteTargetData, FsEvent.closedTarget,
        FsEvent.triedSetModTime]) ∧
     FsEvent.removedTarget ∉ (copyNewFile envModTimeFailW).2 ∧
     (copyNewFile envModTimeFailW).2.indexOf FsEvent.closedTarget <
       (copyNewFile envModTimeFailW).2.indexOf FsEvent.triedSetModTime) :=
  ⟨ffs_C8_copy_new_file.1 envTargetExistsW rfl rfl rfl,
   ffs_C8_copy_new_file.2 envModTimeFailW "utimensat failed"
     rfl rfl rfl rfl rfl rfl rfl rfl rfl rfl⟩

/-- C9, counterexample: the fast type query fails on `b :: [a]` (the
path `/a/b`), `itemStillExists` reports "not existing", yet no parent
traversal confirmed the absence — the listing of `/a` does contain an
entry named `b` (the recursion stopped because `/a` is a file). -/
theorem ffs_C9_counterexample :
    envItemW.itemType ["b", "a"] = Except.error { msg := "access denied" } ∧
    itemStillExists envItemW ["b", "a"] = Except.ok none ∧
    envItemW.listing ["a"] = Except.ok [("b", ItemType.file)] := by
  refine ⟨rfl, ?_, rfl⟩
  rfl

/-- C9, amended: when the fast type query fails, `itemStillExists`
returns "not existing" only when either the recursively verified parent
is itself not existing or is a file (no traversal is possible then), or
a case-sensitive traversal of the parent finds no entry with the item's
name; if that traversal does find the name, a "Temporary access error"
`FileError` is raised instead of returning the found type; and at a
device root the original failure is re-raised. -/
theorem ffs_C9_item_still_exists :
    (∀ (env : ItemEnv) (e : FileError),
       env.itemType [] = Except.error e → itemStillExists env [] = Except.error e) ∧
    (∀ (env : ItemEnv) (n : String) (pp : List String) (e : FileError) (t : ItemType)
       (entries : List (String × ItemType)),
       env.itemType (n :: pp) = Except.error e →
       itemStillExists env pp = Except.ok (some t) → t ≠ ItemType.file →
       env.listing pp = Except.ok entries → (entries.any fun kv => kv.1 = n) = true →
       itemStillExists env (n :: pp) =
         Except.error { msg := "Temporary access error: " ++ e.msg }) ∧
    (∀ (env : ItemEnv) (n : String) (pp : List String) (e : FileError),
       env.itemType (n :: pp) = Except.error e →
       itemStillExists env (n :: pp) = Except.ok none →
       itemStillExists env pp = Except.ok none ∨
       itemStillExists env pp = Except.ok (some ItemType.file) ∨
       (∃ entries, env.listing pp = Except.ok entries ∧
          (entries.any fun kv => kv.1 = n) = false)) := by
  refine ⟨?_, ?_, ?_⟩
  · intro env e h
    simp [itemStillExists, h]
  · intro env n pp e t entries hfail hparent ht hlist hfound
    simp [itemStillExists, hfail, hparent, ht, hlist, hfound]
  · intro env n pp e hfail hnone
    simp only [itemStillExists, hfail] at hnone
    cases hp : itemStillExists env pp with
    | error e2 => simp [hp] at hnone
    | ok parentType =>
      simp only [hp] at hnone
      cases parentType with
      | none => exact Or.inl rfl
      | some t =>
        by_cases ht : t = ItemType.file
        · subst ht; exact Or.inr (Or.inl rfl)
        · simp only [ne_eq, ht, not_false_iff, if_true] at hnone
          cases hl : env.listing pp with
          | error e3 => simp [hl] at hnone
          | ok entries =>
            simp only [hl] at hnone
            cases hfind : entries.any fun kv => kv.1 = n with
            | true => simp [hfind] at hnone
            | false => exact Or.inr (Or.inr ⟨entries, rfl, hfind⟩)

/-- C9, witness: on concrete environments, the device-root clause, the
temporary-access-error clause and the amended not-existing clause of
`ffs_C9_item_still_exists` are realized. -/
theorem ffs_C9_witness :
    itemStillExists envRootW [] = Except.error { msg := "io error" } ∧
    itemStillExists envFoundW ["x"] =
      Except.error { msg := "Temporary access error: " ++ "eAccess" } ∧
    (itemStillExists envItemW ["a"] = Except.ok none ∨
     itemStillExists envItemW ["a"] = Except.ok (some ItemType.file) ∨
     (∃ entries, envItemW.listing ["a"] = Except.ok entries ∧
        (entries.any fun kv => kv.1 = "b") = false)) :=
  ⟨ffs_C9_item_still_exists.1 envRootW { msg := "io error" } rfl,
   ffs_C9_item_still_exists.2.1 envFoundW "x" [] { msg := "eAccess" } ItemType.folder
     [("x", ItemType.file)] rfl rfl (by decide) rfl (by decide),
   ffs_C9_item_still_exists.2.2 envItemW "b" ["a"] { msg := "access denied" } rfl rfl⟩

/-- A file updated by `setSyncDirectionFile` either categorizes as
equal or carries the new direction. -/
theorem setSyncDirectionFile_dirSet (dirn : SyncDirection) (f : FilePair) :
    ((setSyncDirectionFile dirn f).category == CompareFileResult.FILE_EQUAL ||
     (setSyncDirectionFile dirn f).syncDir == SyncDirState.dir dirn) = true := by
  unfold setSyncDirectionFile
  by_cases h : f.category = CompareFileResult.FILE_EQUAL <;> simp [h]

/-- A symlink updated by `setSyncDirectionLink` either categorizes as
equal or carries the new direction. -/
theorem setSyncDirectionLink_dirSet (dirn : SyncDirection) (l : SymlinkPair) :
    ((setSyncDirectionLink dirn l).category == CompareSymlinkResult.SYMLINK_EQUAL ||
     (setSyncDirectionLink dirn l).syncDir == SyncDirState.dir dirn) = true := by
  unfold setSyncDirectionLink
  by_cases h : l.category = CompareSymlinkResult.SYMLINK_EQUAL <;> simp [h]

mutual

/-- After `setSyncDirectionFolder`, every non-equal item of the subtree
carries the new direction. -/
theorem setSyncDirectionFolder_dirSet (dirn : SyncDirection) :
    (t : FolderTree) →
    treeDirSet (SyncDirState.dir dirn) (setSyncDirectionFolder dirn t) = true
  | FolderTree.node d files links subs => by
      unfold setSyncDirectionFolder
      simp only [treeDirSet, Bool.and_eq_true, List.all_map, List.all_eq_true]
      refine ⟨⟨⟨?_, ?_⟩, ?_⟩, ?_⟩
      · by_cases h : d.category = CompareDirResult.DIR_EQUAL <;> simp [h]
      · intro f _; exact setSyncDirectionFile_dirSet dirn f
      · intro l _; exact setSyncDirectionLink_dirSet dirn l
      · exact setSyncDirectionFolderList_dirSet dirn subs

/-- `setSyncDirectionFolder_dirSet` over a subtree list. -/
theorem setSyncDirectionFolderList_dirSet (dirn : SyncDirection) :
    (ts : List FolderTree) →
    listDirSet (SyncDirState.dir dirn) (setSyncDirectionFolderList dirn ts) = true
  | [] => rfl
  | t :: ts => by
      unfold setSyncDirectionFolderList
      simp only [listDirSet, Bool.and_eq_true]
      exact ⟨setSyncDirectionFolder_dirSet dirn t, setSyncDirectionFolderList_dirSet dirn ts⟩

end

/-- C3, counterexample: a left-only *symlink* named with the reserved
temporary suffix is not swept — under a one-way policy with
`exLeftSideOnly = right` the resolver assigns direction right, and the
two-way resolver (without a database entry) likewise assigns right,
not the deletion direction (left) the claim demands. -/
theorem ffs_C3_counterexample :
    symTempW.category = linkOneSideOnlyCat Side.left ∧
    zEndsWith (symTempW.itemName Side.left) TEMP_FILE_ENDING = true ∧
    (redetermineLink cfgUpdateW symTempW).syncDir = SyncDirState.dir SyncDirection.right ∧
    (twoWaySymlink twoWayParamsW none none symTempW).syncDir =
      SyncDirState.dir SyncDirection.right ∧
    SyncDirState.dir SyncDirection.right ≠ SyncDirState.dir (dirToward Side.left) := by
  refine ⟨rfl, by decide, rfl, ?_, by decide⟩
  rfl

/-- C3, amended: the temp-file sweep applies to files and folders (not
symlinks): a one-side-only file or folder whose name on the present
side ends with the reserved temporary suffix is scheduled, before any
other decision logic and regardless of policy or database state, for
deletion on that side — for folders via `setSyncDirectionRec`, which
assigns the direction to the folder and every non-equal descendant
without descending into the decision logic. -/
theorem ffs_C3_temp_sweep :
    (∀ (dirCfg : DirectionSet) (file : FilePair) (side : Side),
       file.category = fileOneSideOnlyCat side →
       zEndsWith (file.itemName side) TEMP_FILE_ENDING = true →
       (redetermineFile dirCfg file).syncDir = SyncDirState.dir (dirToward side)) ∧
    (∀ (P : TwoWayParams) (dbFolderL dbFolderR : Option InSyncFolder) (file : FilePair)
       (side : Side),
       file.category = fileOneSideOnlyCat side →
       zEndsWith (file.itemName side) TEMP_FILE_ENDING = true →
       (twoWayFile P dbFolderL dbFolderR file).syncDir = SyncDirState.dir (dirToward side)) ∧
    (∀ (dirCfg : DirectionSet) (d : FolderData) (files : List FilePair)
       (links : List SymlinkPair) (subs : List FolderTree) (side : Side),
       d.category = dirOneSideOnlyCat side →
       zEndsWith (d.itemName side) TEMP_FILE_ENDING = true →
       redetermineFolder dirCfg (FolderTree.node d files links subs) =
         setSyncDirectionFolder (dirToward side) (FolderTree.node d files links subs)) ∧
    (∀ (P : TwoWayParams) (dbFolderL dbFolderR : Option InSyncFolder) (d : FolderData)
       (files : List FilePair) (links : List SymlinkPair) (subs : List FolderTree)
       (side : Side),
       d.category = dirOneSideOnlyCat side →
       zEndsWith (d.itemName side) TEMP_FILE_ENDING = true →
       twoWayDir P dbFolderL dbFolderR (FolderTree.node d files links subs) =
         setSyncDirectionFolder (dirToward side) (FolderTree.node d files links subs)) ∧
    (∀ (dirn : SyncDirection) (t : FolderTree),
       treeDirSet (SyncDirState.dir dirn) (setSyncDirectionFolder dirn t) = true) := by
  refine ⟨?_, ?_, ?_, ?_, fun dirn t => setSyncDirectionFolder_dirSet dirn t⟩
  · intro dirCfg file side hcat hend
    cases side <;> simp_all [redetermineFile, fileOneSideOnlyCat, dirToward, FilePair.itemName]
  · intro P dbFolderL dbFolderR file side hcat hend
    cases side <;> simp_all [twoWayFile, fileOneSideOnlyCat, dirToward, FilePair.itemName]
  · intro dirCfg d files links subs side hcat hend
    cases side <;> simp_all [redetermineFolder, dirOneSideOnlyCat, dirToward, FolderData.itemName]
  · intro P dbFolderL dbFolderR d files links subs side hcat hend
    cases side <;> simp_all [twoWayDir, dirOneSideOnlyCat, dirToward, FolderData.itemName]

/-- C3, witness: on concrete temp-suffixed items, a left-only file is
scheduled for deletion on the left in both modes, a left-only folder is
recursively scheduled in both modes, and the recursive assignment marks
all non-equal items. -/
theorem ffs_C3_witness :
    (redetermineFile cfgUpdateW fileTempW).syncDir = SyncDirState.dir (dirToward Side.left) ∧
    (twoWayFile twoWayParamsW none none fileTempW).syncDir =
      SyncDirState.dir (dirToward Side.left) ∧
    redetermineFolder cfgUpdateW (FolderTree.node folderTempDataW [fileTempW] [symTempW] []) =
      setSyncDirectionFolder (dirToward Side.left)
        (FolderTree.node folderTempDataW [fileTempW] [symTempW] []) ∧
    twoWayDir twoWayParamsW none none
        (FolderTree.node folderTempDataW [fileTempW] [symTempW] []) =
      setSyncDirectionFolder (dirToward Side.left)
        (FolderTree.node folderTempDataW [fileTempW] [symTempW] []) ∧
    treeDirSet (SyncDirState.dir SyncDirection.left)
      (setSyncDirectionFolder SyncDirection.left
        (FolderTree.node folderTempDataW [fileTempW] [symTempW] [])) = true :=
  ⟨ffs_C3_temp_sweep.1 cfgUpdateW fileTempW Side.left rfl (by decide),
   ffs_C3_temp_sweep.2.1 twoWayParamsW none none fileTempW Side.left rfl (by decide),
   ffs_C3_temp_sweep.2.2.1 cfgUpdateW folderTempDataW [fileTempW] [symTempW] [] Side.left
     rfl (by decide),
   ffs_C3_temp_sweep.2.2.2.1 twoWayParamsW none none folderTempDataW [fileTempW] [symTempW] []
     Side.left rfl (by decide),
   ffs_C3_temp_sweep.2.2.2.2 SyncDirection.left
     (FolderTree.node folderTempDataW [fileTempW] [symTempW] [])⟩

mutual

/-- After `inOrExcludeAllRows<false>`, every item of the subtree is
inactive. -/
theorem treeAllInactive_exclude :
    (t : FolderTree) → treeAllInactive (inOrExcludeTree false t) = true
  | FolderTree.node d files links subs => by
      unfold inOrExcludeTree
      simp only [treeAllInactive, Bool.and_eq_true, List.all_map, List.all_eq_true]
      exact ⟨⟨⟨rfl, fun f _ => rfl⟩, fun l _ => rfl⟩, listAllInactive_exclude subs⟩

/-- `treeAllInactive_exclude` over a subtree list. -/
theorem listAllInactive_exclude :
    (ts : List FolderTree) → listAllInactive (inOrExcludeTreeList false ts) = true
  | [] => rfl
  | t :: ts => by
      unfold inOrExcludeTreeList
      simp only [listAllInactive, Bool.and_eq_true]
      exact ⟨treeAllInactive_exclude t, listAllInactive_exclude ts⟩

end

/-- C6: under the hard filter (both strategies), when the folder
verdict reports `child_might_match = false`, every descendant of the
folder ends up inactive, and the filter is not evaluated below the
folder: any filter agreeing with it on this folder produces the
identical result. -/
theorem ffs_C6_hard_filter_pruning (strategy : FilterStrategy) (filterProc : PathFilter)
    (d : FolderData) (files : List FilePair) (links : List SymlinkPair)
    (subs : List FolderTree)
    (hprune : (filterProc.passDirFilter d.relPathAny).2 = false) :
    childrenInactive
      (applyHardDir strategy filterProc (FolderTree.node d files links subs)) = true ∧
    (∀ G : PathFilter, G.passDirFilter d.relPathAny = filterProc.passDirFilter d.relPathAny →
       applyHardDir strategy G (FolderTree.node d files links subs) =
       applyHardDir strategy filterProc (FolderTree.node d files links subs)) := by
  constructor
  · unfold applyHardDir
    simp only [hprune, Bool.not_false, if_pos]
    simp only [childrenInactive, Bool.and_eq_true, List.all_map, List.all_eq_true]
    exact ⟨⟨fun f _ => rfl, fun l _ => rfl⟩, listAllInactive_exclude subs⟩
  · intro G hG
    unfold applyHardDir
    rw [hG]
    simp [hprune]

/-- C6, witness: the pruning filter deactivates every descendant of the
concrete `logs/` subtree under both strategies, and any filter agreeing
on the folder gives the same result. -/
theorem ffs_C6_witness :
    childrenInactive (applyHardDir FilterStrategy.STRATEGY_SET pruneFilterW logsTreeW) = true ∧
    childrenInactive (applyHardDir FilterStrategy.STRATEGY_AND pruneFilterW logsTreeW) = true ∧
    applyHardDir FilterStrategy.STRATEGY_SET
        { passFileFilter := fun _ => false, passDirFilter := fun _ => (false, false) }
        logsTreeW =
      applyHardDir FilterStrategy.STRATEGY_SET pruneFilterW logsTreeW :=
  ⟨(ffs_C6_hard_filter_pruning FilterStrategy.STRATEGY_SET pruneFilterW logsFolderDataW
      [logFileW] [symTempW] [FolderTree.node logsFolderDataW [logFileW] [] []] rfl).1,
   (ffs_C6_hard_filter_pruning FilterStrategy.STRATEGY_AND pruneFilterW logsFolderDataW
      [logFileW] [symTempW] [FolderTree.node logsFolderDataW [logFileW] [] []] rfl).1,
   (ffs_C6_hard_filter_pruning FilterStrategy.STRATEGY_SET pruneFilterW logsFolderDataW
      [logFileW] [symTempW] [FolderTree.node logsFolderDataW [logFileW] [] []] rfl).2
     { passFileFilter := fun _ => false, passDirFilter := fun _ => (false, false) } rfl⟩

/-- C1: in two-way mode, for every non-equal item pair outside the
temp-file sweep, with the per-side database entries as looked up by the
resolver: if exactly one side fails its `matchesDbEntry` check the
direction is set toward the unchanged side, unless either side's
database record fails the still-in-sync check, in which case the
conflict "database not in sync" is set; if both sides changed, the
conflict "both sides have changed…"; if neither changed, the conflict
"no change since last synchronization" (stated for files and for
folders). -/
theorem ffs_C1_two_way_reconciliation :
    (∀ (P : TwoWayParams) (dbFolderL dbFolderR : Option InSyncFolder) (file : FilePair)
       (dbEntryL : Option InSyncFile) (dbEntryR : Option InSyncFile),
       file.category ≠ CompareFileResult.FILE_EQUAL →
       ¬(file.category = CompareFileResult.FILE_LEFT_SIDE_ONLY ∧
         zEndsWith (file.itemName Side.left) TEMP_FILE_ENDING = true) →
       ¬(file.category = CompareFileResult.FILE_RIGHT_SIDE_ONLY ∧
         zEndsWith (file.itemName Side.right) TEMP_FILE_ENDING = true) →
       twoWayDbFilePair P dbFolderL dbFolderR file = (dbEntryL, dbEntryR) →
       (matchesDbEntryFile Side.left file dbEntryL P.ignoreTimeShiftMinutes ≠
          matchesDbEntryFile Side.right file dbEntryR P.ignoreTimeShiftMinutes →
          (staleDbFile P dbEntryL || staleDbFile P dbEntryR) = true →
          (twoWayFile P dbFolderL dbFolderR file).syncDir =
            SyncDirState.conflict txtDbNotInSync) ∧
       (matchesDbEntryFile Side.left file dbEntryL P.ignoreTimeShiftMinutes ≠
          matchesDbEntryFile Side.right file dbEntryR P.ignoreTimeShiftMinutes →
          (staleDbFile P dbEntryL || staleDbFile P dbEntryR) = false →
          (twoWayFile P dbFolderL dbFolderR file).syncDir =
            SyncDirState.dir
              (if matchesDbEntryFile Side.left file dbEntryL P.ignoreTimeShiftMinutes then
                 SyncDirection.left
               else SyncDirection.right)) ∧
       (matchesDbEntryFile Side.left file dbEntryL P.ignoreTimeShiftMinutes = false →
          matchesDbEntryFile Side.right file dbEntryR P.ignoreTimeShiftMinutes = false →
          (twoWayFile P dbFolderL dbFolderR file).syncDir =
            SyncDirState.conflict txtBothSidesChanged) ∧
       (matchesDbEntryFile Side.left file dbEntryL P.ignoreTimeShiftMinutes = true →
          matchesDbEntryFile Side.right file dbEntryR P.ignoreTimeShiftMinutes = true →
          (twoWayFile P dbFolderL dbFolderR file).syncDir =
            SyncDirState.conflict txtNoSideChanged)) ∧
    (∀ (P : TwoWayParams) (dbFolderL dbFolderR : Option InSyncFolder) (d : FolderData)
       (files : List FilePair) (links : List SymlinkPair) (subs : List FolderTree)
       (dbEntryL : Option InSyncFolder) (dbEntryR : Option InSyncFolder),
       d.category ≠ CompareDirResult.DIR_EQUAL →
       ¬(d.category = CompareDirResult.DIR_LEFT_SIDE_ONLY ∧
         zEndsWith (d.itemName Side.left) TEMP_FILE_ENDING = true) →
       ¬(d.category = CompareDirResult.DIR_RIGHT_SIDE_ONLY ∧
         zEndsWith (d.itemName Side.right) TEMP_FILE_ENDING = true) →
       twoWayDbFolderPair P dbFolderL dbFolderR d = (dbEntryL, dbEntryR) →
       (matchesDbEntryFolder Side.left d dbEntryL ≠ matchesDbEntryFolder Side.right d dbEntryR →
          (staleDbFolder dbEntryL || staleDbFolder dbEntryR) = true →
          (twoWayDir P dbFolderL dbFolderR (FolderTree.node d files links subs)).rootData.syncDir =
            SyncDirState.conflict txtDbNotInSync) ∧
       (matchesDbEntryFolder Side.left d dbEntryL ≠ matchesDbEntryFolder Side.right d dbEntryR →
          (staleDbFolder dbEntryL || staleDbFolder dbEntryR) = false →
          (twoWayDir P dbFolderL dbFolderR (FolderTree.node d files links subs)).rootData.syncDir =
            SyncDirState.dir
              (if matchesDbEntryFolder Side.left d dbEntryL then SyncDirection.left
               else SyncDirection.right)) ∧
       (matchesDbEntryFolder Side.left d dbEntryL = false →
          matchesDbEntryFolder Side.right d dbEntryR = false →
          (twoWayDir P dbFolderL dbFolderR (FolderTree.node d files links subs)).rootData.syncDir =
            SyncDirState.conflict txtBothSidesChanged) ∧
       (matchesDbEntryFolder Side.left d dbEntryL = true →
          matchesDbEntryFolder Side.right d dbEntryR = true →
          (twoWayDir P dbFolderL dbFolderR (FolderTree.node d files links subs)).rootData.syncDir =
            SyncDirState.conflict txtNoSideChanged)) := by
  constructor
  · intro P dbFolderL dbFolderR file dbEntryL dbEntryR hne htl htr hpair
    have key : twoWayFile P dbFolderL dbFolderR file =
        (let changeOnLeft := ! matchesDbEntryFile Side.left file dbEntryL P.ignoreTimeShiftMinutes
         let changeOnRight := ! matchesDbEntryFile Side.right file dbEntryR P.ignoreTimeShiftMinutes
         if changeOnLeft ≠ changeOnRight then
           if staleDbFile P dbEntryL || staleDbFile P dbEntryR then
             { file with syncDir := SyncDirState.conflict txtDbNotInSync }
           else
             let dd := if changeOnLeft then SyncDirection.right else SyncDirection.left
             { file with syncDir := SyncDirState.dir dd }
         else if changeOnLeft then
           { file with syncDir := SyncDirState.conflict txtBothSidesChanged }
         else { file with syncDir := SyncDirState.conflict txtNoSideChanged }) := by
      simp only [twoWayFile, hpair]
      rw [if_neg hne, if_neg htl, if_neg htr]
    cases hL : matchesDbEntryFile Side.left file dbEntryL P.ignoreTimeShiftMinutes <;>
      cases hR : matchesDbEntryFile Side.right file dbEntryR P.ignoreTimeShiftMinutes <;>
      refine ⟨?_, ?_, ?_, ?_⟩ <;> intro h1 h2 <;> simp_all [key]
  · intro P dbFolderL dbFolderR d files links subs dbEntryL dbEntryR hne htl htr hpair
    have key : (twoWayDir P dbFolderL dbFolderR
        (FolderTree.node d files links subs)).rootData =
        twoWayDirData d dbEntryL dbEntryR := by
      simp only [twoWayDir, hpair]
      rw [if_neg htl, if_neg htr]
      rfl
    cases hL : matchesDbEntryFolder Side.left d dbEntryL <;>
      cases hR : matchesDbEntryFolder Side.right d dbEntryR <;>
      refine ⟨?_, ?_, ?_, ?_⟩ <;> intro h1 h2 <;>
      simp_all [key, twoWayDirData]

/-- C1, witness: a right-only file whose right side matches the
database record (deleted on the left) is synced toward the right, and a
left-only folder without a database entry is synced toward the right;
both via the two-way rules. -/
theorem ffs_C1_witness :
    (twoWayFile twoWayParamsW (some dbRootW) (some dbRootW) candRW).syncDir =
      SyncDirState.dir SyncDirection.right ∧
    (twoWayDir twoWayParamsW (some dbRootW) (some dbRootW)
        (FolderTree.node folderOnlyW [] [] [])).rootData.syncDir =
      SyncDirState.dir SyncDirection.right := by
  constructor
  · have h := ((ffs_C1_two_way_reconciliation.1 twoWayParamsW (some dbRootW) (some dbRootW)
        candRW (some dbFileW) (some dbFileW) (by decide) (by decide) (by decide)
        (by decide)).2.1 (by decide) (by decide))
    rw [h]; decide
  · have h := ((ffs_C1_two_way_reconciliation.2 twoWayParamsW (some dbRootW) (some dbRootW)
        folderOnlyW [] [] [] none none (by decide) (by decide) (by decide)
        (by rfl)).2.1 (by decide) (by decide))
    rw [h]; decide

mutual

/-- `inOrExcludeAllRows<false>` is idempotent on a subtree. -/
theorem inOrExcludeTree_idem :
    (t : FolderTree) → inOrExcludeTree false (inOrExcludeTree false t) = inOrExcludeTree false t
  | FolderTree.node d files links subs => by
      simp only [inOrExcludeTree, List.map_map, Function.comp_def]
      rw [inOrExcludeTreeList_idem subs]

/-- `inOrExcludeAllRows<false>` is idempotent on a subtree list. -/
theorem inOrExcludeTreeList_idem :
    (ts : List FolderTree) →
    inOrExcludeTreeList false (inOrExcludeTreeList false ts) = inOrExcludeTreeList false ts
  | [] => rfl
  | t :: ts => by
      simp only [inOrExcludeTreeList]
      rw [inOrExcludeTree_idem t, inOrExcludeTreeList_idem ts]

end

/-- Re-applying the hard filter with strategy "and" after "set" leaves
a file unchanged. -/
theorem applyHardFile_set_and (filterProc : PathFilter) (f : FilePair) :
    applyHardFile FilterStrategy.STRATEGY_AND filterProc
      (applyHardFile FilterStrategy.STRATEGY_SET filterProc f) =
    applyHardFile FilterStrategy.STRATEGY_SET filterProc f := by
  unfold applyHardFile evalProcessFile
  cases h : filterProc.passFileFilter f.relPathAny <;> simp [h]

/-- Re-applying the hard filter with strategy "and" after "set" leaves
a symlink unchanged. -/
theorem applyHardLink_set_and (filterProc : PathFilter) (l : SymlinkPair) :
    applyHardLink FilterStrategy.STRATEGY_AND filterProc
      (applyHardLink FilterStrategy.STRATEGY_SET filterProc l) =
    applyHardLink FilterStrategy.STRATEGY_SET filterProc l := by
  unfold applyHardLink evalProcessLink
  cases h : filterProc.passFileFilter l.relPathAny <;> simp [h]

mutual

/-- Re-applying the hard filter with strategy "and" after "set" leaves
a subtree unchanged. -/
theorem applyHardDir_set_and (filterProc : PathFilter) :
    (t : FolderTree) →
    applyHardDir FilterStrategy.STRATEGY_AND filterProc
      (applyHardDir FilterStrategy.STRATEGY_SET filterProc t) =
    applyHardDir FilterStrategy.STRATEGY_SET filterProc t
  | FolderTree.node d files links subs => by
      cases hv : filterProc.passDirFilter d.relPathAny with
      | mk passed child =>
        cases child with
        | false =>
            cases passed <;>
              simp [applyHardDir, evalProcessDir, hv, List.map_map, Function.comp_def,
                inOrExcludeTreeList_idem subs]
        | true =>
            have hf : List.map (fun f => applyHardFile FilterStrategy.STRATEGY_AND filterProc
                  (applyHardFile FilterStrategy.STRATEGY_SET filterProc f)) files =
                List.map (applyHardFile FilterStrategy.STRATEGY_SET filterProc) files :=
              List.map_congr_left fun f _ => applyHardFile_set_and filterProc f
            have hk : List.map (fun l => applyHardLink FilterStrategy.STRATEGY_AND filterProc
                  (applyHardLink FilterStrategy.STRATEGY_SET filterProc l)) links =
                List.map (applyHardLink FilterStrategy.STRATEGY_SET filterProc) links :=
              List.map_congr_left fun l _ => applyHardLink_set_and filterProc l
            cases passed <;>
              simp [applyHardDir, evalProcessDir, hv, List.map_map, Function.comp_def, hf, hk,
                applyHardDirList_set_and filterProc subs]

/-- `applyHardDir_set_and` over a subtree list. -/
theorem applyHardDirList_set_and (filterProc : PathFilter) :
    (ts : List FolderTree) →
    applyHardDirList FilterStrategy.STRATEGY_AND filterProc
      (applyHardDirList FilterStrategy.STRATEGY_SET filterProc ts) =
    applyHardDirList FilterStrategy.STRATEGY_SET filterProc ts
  | [] => rfl
  | t :: ts => by
      simp only [applyHardDirList]
      rw [applyHardDir_set_and filterProc t, applyHardDirList_set_and filterProc ts]

end

/-- Re-applying the soft filter with strategy "and" after "set" leaves
a file unchanged. -/
theorem applySoftFile_set_and (timeSizeFilter : SoftFilter) (f : FilePair) :
    applySoftFile FilterStrategy.STRATEGY_AND timeSizeFilter
      (applySoftFile FilterStrategy.STRATEGY_SET timeSizeFilter f) =
    applySoftFile FilterStrategy.STRATEGY_SET timeSizeFilter f := by
  unfold applySoftFile evalProcessFile
  cases hl : f.isEmpty Side.left with
  | true =>
      simp only [hl, if_true, if_pos]
      cases hv : timeSizeFilter.matchSize (f.getFileSize Side.right) &&
          timeSizeFilter.matchTime (f.getLastWriteTime Side.right) <;>
        simp_all [FilePair.isEmpty, FilePair.getFileSize, FilePair.getLastWriteTime]
  | false =>
      cases hr : f.isEmpty Side.right with
      | true =>
          simp only [hl, hr]
          cases hv : timeSizeFilter.matchSize (f.getFileSize Side.left) &&
              timeSizeFilter.matchTime (f.getLastWriteTime Side.left) <;>
            simp_all [FilePair.isEmpty, FilePair.getFileSize, FilePair.getLastWriteTime]
      | false =>
          simp only [hl, hr]
          cases hv : (timeSizeFilter.matchSize (f.getFileSize Side.right) &&
              timeSizeFilter.matchTime (f.getLastWriteTime Side.right)) ||
              (timeSizeFilter.matchSize (f.getFileSize Side.left) &&
               timeSizeFilter.matchTime (f.getLastWriteTime Side.left)) <;>
            simp_all [FilePair.isEmpty, FilePair.getFileSize, FilePair.getLastWriteTime]

/-- Re-applying the soft filter with strategy "and" after "set" leaves
a symlink unchanged. -/
theorem applySoftLink_set_and (timeSizeFilter : SoftFilter) (l : SymlinkPair) :
    applySoftLink FilterStrategy.STRATEGY_AND timeSizeFilter
      (applySoftLink FilterStrategy.STRATEGY_SET timeSizeFilter l) =
    applySoftLink FilterStrategy.STRATEGY_SET timeSizeFilter l := by
  unfold applySoftLink evalProcessLink
  cases hl : l.isEmpty Side.left with
  | true =>
      simp only [hl, if_true, if_pos]
      cases hv : timeSizeFilter.matchTime (l.getLastWriteTime Side.right) <;>
        simp_all [SymlinkPair.isEmpty, SymlinkPair.getLastWriteTime]
  | false =>
      cases hr : l.isEmpty Side.right with
      | true =>
          simp only [hl, hr]
          cases hv : timeSizeFilter.matchTime (l.getLastWriteTime Side.left) <;>
            simp_all [SymlinkPair.isEmpty, SymlinkPair.getLastWriteTime]
      | false =>
          simp only [hl, hr]
          cases hv : timeSizeFilter.matchTime (l.getLastWriteTime Side.right) ||
              timeSizeFilter.matchTime (l.getLastWriteTime Side.left) <;>
            simp_all [SymlinkPair.isEmpty, SymlinkPair.getLastWriteTime]

mutual

/-- Re-applying the soft filter with strategy "and" after "set" leaves
a subtree unchanged. -/
theorem applySoftDir_set_and (timeSizeFilter : SoftFilter) :
    (t : FolderTree) →
    applySoftDir FilterStrategy.STRATEGY_AND timeSizeFilter
      (applySoftDir FilterStrategy.STRATEGY_SET timeSizeFilter t) =
    applySoftDir FilterStrategy.STRATEGY_SET timeSizeFilter t
  | FolderTree.node d files links subs => by
      have hf : List.map (fun f => applySoftFile FilterStrategy.STRATEGY_AND timeSizeFilter
            (applySoftFile FilterStrategy.STRATEGY_SET timeSizeFilter f)) files =
          List.map (applySoftFile FilterStrategy.STRATEGY_SET timeSizeFilter) files :=
        List.map_congr_left fun f _ => applySoftFile_set_and timeSizeFilter f
      have hk : List.map (fun l => applySoftLink FilterStrategy.STRATEGY_AND timeSizeFilter
            (applySoftLink FilterStrategy.STRATEGY_SET timeSizeFilter l)) links =
          List.map (applySoftLink FilterStrategy.STRATEGY_SET timeSizeFilter) links :=
        List.map_congr_left fun l _ => applySoftLink_set_and timeSizeFilter l
      cases hm : timeSizeFilter.matchFolder <;>
        simp [applySoftDir, evalProcessDir, hm, List.map_map, Function.comp_def, hf, hk,
          applySoftDirList_set_and timeSizeFilter subs]

/-- `applySoftDir_set_and` over a subtree list. -/
theorem applySoftDirList_set_and (timeSizeFilter : SoftFilter) :
    (ts : List FolderTree) →
    applySoftDirList FilterStrategy.STRATEGY_AND timeSizeFilter
      (applySoftDirList FilterStrategy.STRATEGY_SET timeSizeFilter ts) =
    applySoftDirList FilterStrategy.STRATEGY_SET timeSizeFilter ts
  | [] => rfl
  | t :: ts => by
      simp only [applySoftDirList]
      rw [applySoftDir_set_and timeSizeFilter t, applySoftDirList_set_and timeSizeFilter ts]

end

/-- C7: applying a filter with strategy "set" and then the same filter
again with strategy "and" leaves every item's active flag unchanged
compared to "set" alone, for every pair tree and both the hard and the
soft filter. -/
theorem ffs_C7_set_then_and (filterProc : PathFilter) (timeSizeFilter : SoftFilter)
    (c : ContainerObject) :
    applyHardContainer FilterStrategy.STRATEGY_AND filterProc
      (applyHardContainer FilterStrategy.STRATEGY_SET filterProc c) =
    applyHardContainer FilterStrategy.STRATEGY_SET filterProc c ∧
    applySoftContainer FilterStrategy.STRATEGY_AND timeSizeFilter
      (applySoftContainer FilterStrategy.STRATEGY_SET timeSizeFilter c) =
    applySoftContainer FilterStrategy.STRATEGY_SET timeSizeFilter c := by
  constructor
  · unfold applyHardContainer
    simp only [List.map_map, Function.comp_def]
    rw [List.map_congr_left fun f _ => applyHardFile_set_and filterProc f,
      List.map_congr_left fun l _ => applyHardLink_set_and filterProc l,
      applyHardDirList_set_and filterProc c.folders]
  · unfold applySoftContainer
    simp only [List.map_map, Function.comp_def]
    rw [List.map_congr_left fun f _ => applySoftFile_set_and timeSizeFilter f,
      List.map_congr_left fun l _ => applySoftLink_set_and timeSizeFilter l,
      applySoftDirList_set_and timeSizeFilter c.folders]

/-- Clearing a file print zeroes it. -/
theorem clearFilePrint_print (side : Side) (f : FilePair) :
    (f.clearFilePrint side).getFilePrint side = 0 := by
  cases side <;> rfl

/-- A singleton run is emitted unchanged. -/
theorem emitRun_nil (side : Side) (cur : FilePair) : emitRun side cur [] = [cur] := rfl

/-- The prints of an emitted run: zero (cleared) or the run's print. -/
theorem emitRun_prints (side : Side) (cur : FilePair) (run : List FilePair) :
    ∀ x ∈ emitRun side cur run,
      x.getFilePrint side = 0 ∨ x.getFilePrint side = cur.getFilePrint side := by
  intro x hx
  unfold emitRun at hx
  by_cases hr : run.isEmpty
  · rw [if_pos hr] at hx
    simp only [List.mem_singleton] at hx
    exact Or.inr (hx ▸ rfl)
  · rw [if_neg hr] at hx
    obtain ⟨y, _, hy⟩ := List.mem_map.mp hx
    exact Or.inl (hy ▸ clearFilePrint_print side y)

/-- Counting a non-zero print in a cleared (length ≥ 2) emitted run
yields zero. -/
theorem emitRun_count_cleared (side : Side) (cur : FilePair) (run : List FilePair)
    (hne : run ≠ []) (p : Nat) (hp : p ≠ 0) :
    (((emitRun side cur run).map fun f => f.getFilePrint side).count p) = 0 := by
  rw [List.count_eq_zero]
  intro hmem
  obtain ⟨x, hx, hpx⟩ := List.mem_map.mp hmem
  unfold emitRun at hx
  rw [if_neg (by simpa [List.isEmpty_iff] using hne)] at hx
  obtain ⟨y, _, hy⟩ := List.mem_map.mp hx
  have h0 : x.getFilePrint side = 0 := hy ▸ clearFilePrint_print side y
  exact hp (hpx.symm.trans h0)

/-- The prints produced by the run-clearing pass are zero, the current
run's print, or a print from the remaining input. -/
theorem purgeRunsAux_prints (side : Side) :
    (rest : List FilePair) → (cur : FilePair) → (run : List FilePair) →
    ∀ x ∈ purgeRunsAux side cur run rest,
      x.getFilePrint side = 0 ∨ x.getFilePrint side = cur.getFilePrint side ∨
      x.getFilePrint side ∈ rest.map fun f => f.getFilePrint side
  | [], cur, run => by
      intro x hx
      unfold purgeRunsAux at hx
      rcases emitRun_prints side cur run x hx with h | h
      · exact Or.inl h
      · exact Or.inr (Or.inl h)
  | g :: rest', cur, run => by
      intro x hx
      unfold purgeRunsAux at hx
      by_cases heq : g.getFilePrint side = cur.getFilePrint side
      · rw [if_pos heq] at hx
        rcases purgeRunsAux_prints side rest' cur (g :: run) x hx with h | h | h
        · exact Or.inl h
        · exact Or.inr (Or.inl h)
        · exact Or.inr (Or.inr (by simp only [List.map_cons]; exact List.mem_cons_of_mem _ h))
      · rw [if_neg heq] at hx
        rcases List.mem_append.mp hx with h | h
        · rcases emitRun_prints side cur run x h with h2 | h2
          · exact Or.inl h2
          · exact Or.inr (Or.inl h2)
        · rcases purgeRunsAux_prints side rest' g [] x h with h2 | h2 | h2
          · exact Or.inl h2
          · exact Or.inr (Or.inr (by
              simp only [List.map_cons]
              exact List.mem_cons.mpr (Or.inl h2)))
          · exact Or.inr (Or.inr (by
              simp only [List.map_cons]
              exact List.mem_cons_of_mem _ h2))

/-- Counting over the prints of files that all share one print. -/
theorem count_map_const_print (side : Side) (p : Nat) (l : List FilePair) (q : Nat)
    (hall : ∀ f ∈ l, f.getFilePrint side = q) :
    ((l.map fun f => f.getFilePrint side).count p) = if q = p then l.length else 0 := by
  induction l with
  | nil => simp
  | cons f fs ih =>
      have hf := hall f (List.mem_cons_self f fs)
      have ih' := ih fun g hg => hall g (List.mem_cons_of_mem f hg)
      by_cases h : q = p <;> simp [List.count_cons, ih', hf, h]

/-- Core counting lemma for the duplicate purge: over a sorted input, a
non-zero print survives the clearing pass exactly when it occurred
exactly once (a whole run of two or more is cleared). -/
theorem purgeRunsAux_count (side : Side) (p : Nat) (hp : p ≠ 0) :
    (rest : List FilePair) → (cur : FilePair) → (run : List FilePair) →
    (∀ f ∈ run, f.getFilePrint side = cur.getFilePrint side) →
    List.Sorted (printLE side) (cur :: rest) →
    (((purgeRunsAux side cur run rest).map fun f => f.getFilePrint side).count p) =
      if (((cur :: (run ++ rest)).map fun f => f.getFilePrint side).count p) = 1 then 1
      else 0
  | [], cur, run => by
      intro hrun _hsort
      cases run with
      | nil =>
          by_cases h : cur.getFilePrint side = p <;>
            simp [purgeRunsAux, emitRun, List.count_cons, h]
      | cons r rs =>
          simp only [purgeRunsAux]
          rw [emitRun_count_cleared side cur (r :: rs) (by simp) p hp,
            List.append_nil, List.map_cons, List.count_cons,
            count_map_const_print side p (r :: rs) (cur.getFilePrint side) hrun]
          by_cases h : cur.getFilePrint side = p <;> simp [h]
  | g :: rest', cur, run => by
      intro hrun hsort
      rw [List.sorted_cons] at hsort
      obtain ⟨hcur_le, hsort'⟩ := hsort
      have hsort'' := List.sorted_cons.mp hsort'
      by_cases heq : g.getFilePrint side = cur.getFilePrint side
      · have hrun' : ∀ f ∈ g :: run, f.getFilePrint side = cur.getFilePrint side := by
          intro f hf
          rcases List.mem_cons.mp hf with h | h
          · exact h ▸ heq
          · exact hrun f h
        have hsorted2 : List.Sorted (printLE side) (cur :: rest') :=
          List.sorted_cons.mpr
            ⟨fun b hb => hcur_le b (List.mem_cons_of_mem g hb), hsort''.2⟩
        have ih := purgeRunsAux_count side p hp rest' cur (g :: run) hrun' hsorted2
        have hstep : purgeRunsAux side cur run (g :: rest') =
            purgeRunsAux side cur (g :: run) rest' := by
          simp only [purgeRunsAux]
          rw [if_pos heq]
        rw [hstep, ih]
        have hcnt : (((cur :: ((g :: run) ++ rest')).map fun f => f.getFilePrint side).count p) =
            (((cur :: (run ++ g :: rest')).map fun f => f.getFilePrint side).count p) := by
          simp only [List.map_cons, List.map_append, List.count_cons, List.count_append]
          omega
        rw [hcnt]
      · have hlt : cur.getFilePrint side < g.getFilePrint side :=
          Nat.lt_of_le_of_ne (hcur_le g (List.mem_cons_self g rest')) fun h => heq h.symm
        have hge : ∀ x ∈ rest', g.getFilePrint side ≤ x.getFilePrint side := hsort''.1
        have hstep : purgeRunsAux side cur run (g :: rest') =
            emitRun side cur run ++ purgeRunsAux side g [] rest' := by
          simp only [purgeRunsAux]
          rw [if_neg heq]
        have ih := purgeRunsAux_count side p hp rest' g [] (by simp) hsort'
        rw [hstep, List.map_append, List.count_append]
        by_cases hpc : cur.getFilePrint side = p
        · have hrec0 :
              (((purgeRunsAux side g [] rest').map fun f => f.getFilePrint side).count p) = 0 := by
            rw [List.count_eq_zero]
            intro hmem
            obtain ⟨x, hx, hxp⟩ := List.mem_map.mp hmem
            rcases purgeRunsAux_prints side rest' g [] x hx with h0 | hgp | hmem'
            · exact hp (hxp.symm.trans h0)
            · have : p = g.getFilePrint side := hxp.symm.trans hgp
              omega
            · obtain ⟨y, hy, hyx⟩ := List.mem_map.mp hmem'
              have h1 : g.getFilePrint side ≤ p := by
                have := hge y hy
                omega
              omega
          have htail0 : (((g :: rest').map fun f => f.getFilePrint side).count p) = 0 := by
            rw [List.count_eq_zero]
            intro hmem
            obtain ⟨y, hy, hyp⟩ := List.mem_map.mp hmem
            rcases List.mem_cons.mp hy with h | h
            · subst h; omega
            · have := hge y h
              omega
          rw [hrec0]
          cases run with
          | nil =>
              simp only [emitRun_nil, List.map_cons, List.map_nil, List.count_cons,
                List.nil_append, List.count_nil, List.map_append, List.count_append]
              simp only [List.map_cons, List.count_cons] at htail0
              have hgne : g.getFilePrint side ≠ p := by omega
              have hcount0 :
                  List.count p (List.map (fun f => f.getFilePrint side) rest') = 0 := by
                omega
              rw [hpc]
              simp [hgne, hcount0]
          | cons r rs =>
              rw [emitRun_count_cleared side cur (r :: rs) (by simp) p hp]
              simp only [List.map_cons, List.map_append, List.count_cons, List.count_append]
              have hrs : ((rs.map fun f => f.getFilePrint side).count p) = rs.length := by
                rw [count_map_const_print side p rs (cur.getFilePrint side)
                  fun f hf => hrun f (List.mem_cons_of_mem r hf)]
                simp [hpc]
              have hr : r.getFilePrint side = p :=
                (hrun r (List.mem_cons_self r rs)).trans hpc
              rw [hrs, hr, hpc]
              have hgne : g.getFilePrint side ≠ p := by omega
              simp [hgne]
        · have hemit0 :
              (((emitRun side cur run).map fun f => f.getFilePrint side).count p) = 0 := by
            rw [List.count_eq_zero]
            intro hmem
            obtain ⟨x, hx, hxp⟩ := List.mem_map.mp hmem
            rcases emitRun_prints side cur run x hx with h0 | hc
            · exact hp (hxp.symm.trans h0)
            · exact hpc (hxp ▸ hc ▸ rfl)
          rw [hemit0, ih]
          have hrun0 : ((run.map fun f => f.getFilePrint side).count p) = 0 := by
            rw [count_map_const_print side p run (cur.getFilePrint side) hrun]
            simp [hpc]
          have hcnt : (((cur :: (run ++ g :: rest')).map fun f => f.getFilePrint side).count p) =
              (((g :: ([] ++ rest')).map fun f => f.getFilePrint side).count p) := by
            simp only [List.map_cons, List.map_append, List.count_cons, List.count_append,
              List.map_nil, List.count_nil, List.nil_append]
            rw [show ((run.map fun f => f.getFilePrint side).count p) = 0 from hrun0]
            have : ¬ cur.getFilePrint side = p := hpc
            simp [this]
          rw [hcnt]
          simp

/-- Counting characterization of the whole purge: a non-zero print
survives iff it occurred exactly once in the input. -/
theorem purgeDuplicates_count (side : Side) (files : List FilePair) (p : Nat) (hp : p ≠ 0) :
    (((purgeDuplicates side files).map fun f => f.getFilePrint side).count p) =
      if ((files.map fun f => f.getFilePrint side).count p) = 1 then 1 else 0 := by
  have hperm : List.Perm (sortFilesByPrint side files) files :=
    List.perm_insertionSort (printLE side) files
  have hsorted : List.Sorted (printLE side) (sortFilesByPrint side files) :=
    List.sorted_insertionSort (printLE side) files
  have hcnt : (((sortFilesByPrint side files).map fun f => f.getFilePrint side).count p) =
      ((files.map fun f => f.getFilePrint side).count p) :=
    (hperm.map fun f => f.getFilePrint side).count_eq p
  unfold purgeDuplicates
  cases hs : sortFilesByPrint side files with
  | nil =>
      rw [hs] at hcnt
      simp only [List.map_nil, List.count_nil] at hcnt
      simp [← hcnt]
  | cons f rest =>
      rw [hs] at hcnt hsorted
      have hmain := purgeRunsAux_count side p hp rest f [] (by simp) hsorted
      rw [List.nil_append] at hmain
      rw [hmain, hcnt]

/-- The candidate keys occur no more often than the corresponding
prints in the purged list. -/
theorem collect_keys_count_le (side : Side) (purged : List FilePair) (p : Nat) :
    (((collectCandidatesById side purged).map Prod.fst).count p) ≤
      ((purged.map fun f => f.getFilePrint side).count p) := by
  induction purged with
  | nil => simp [collectCandidatesById]
  | cons f fs ih =>
      by_cases h : f.category = fileOneSideOnlyCat side ∧ f.getFilePrint side ≠ 0
      · simp only [collectCandidatesById, List.filterMap_cons, if_pos h, List.map_cons,
          List.count_cons]
        simp only [collectCandidatesById] at ih
        omega
      · simp only [collectCandidatesById, List.filterMap_cons, if_neg h, List.map_cons,
          List.count_cons]
        simp only [collectCandidatesById] at ih
        omega

/-- The candidate keys never contain the zero print. -/
theorem collect_keys_count_zero (side : Side) (purged : List FilePair) :
    (((collectCandidatesById side purged).map Prod.fst).count 0) = 0 := by
  rw [List.count_eq_zero]
  intro hmem
  obtain ⟨kv, hk, hk0⟩ := List.mem_map.mp hmem
  obtain ⟨g, _, hgf⟩ := List.mem_filterMap.mp hk
  by_cases h : g.category = fileOneSideOnlyCat side ∧ g.getFilePrint side ≠ 0
  · rw [if_pos h] at hgf
    have : kv.1 = g.getFilePrint side := by
      cases hgf
      rfl
    exact h.2 (by rw [← this, hk0])
  · rw [if_neg h] at hgf
    cases hgf

/-- C5: after the move detector's duplicate purge, every non-zero print
that occurred two or more times has been cleared from the list
entirely, and consequently the ID-indexed one-side-only candidates
carry pairwise distinct prints. -/
theorem ffs_C5_purge_duplicates (side : Side) (files : List FilePair) :
    (∀ p : Nat, p ≠ 0 →
       2 ≤ ((files.map fun f => f.getFilePrint side).count p) →
       (((purgeDuplicates side files).map fun f => f.getFilePrint side).count p) = 0) ∧
    ((collectCandidatesById side (purgeDuplicates side files)).map Prod.fst).Nodup := by
  constructor
  · intro p hp h2
    rw [purgeDuplicates_count side files p hp]
    have hne1 : ¬ ((files.map fun f => f.getFilePrint side).count p = 1) := by omega
    simp [hne1]
  · rw [List.nodup_iff_count_le_one]
    intro p
    by_cases hp : p = 0
    · subst hp
      rw [collect_keys_count_zero]
      exact Nat.zero_le 1
    · have h1 := collect_keys_count_le side (purgeDuplicates side files) p
      have h2 := purgeDuplicates_count side files p hp
      have h3 : (((purgeDuplicates side files).map fun f => f.getFilePrint side).count p) ≤ 1 := by
        rw [h2]
        split <;> omega
      omega

/-- C5, witness: two files sharing print 42 are both purged (the print
vanishes), and the concrete candidate keys are distinct. -/
theorem ffs_C5_witness :
    (((purgeDuplicates Side.left [dupAW, dupBW, uniqW]).map
        fun f => f.getFilePrint Side.left).count 42) = 0 ∧
    ((collectCandidatesById Side.left
        (purgeDuplicates Side.left [dupAW, dupBW, uniqW])).map Prod.fst).Nodup :=
  ⟨(ffs_C5_purge_duplicates Side.left [dupAW, dupBW, uniqW]).1 42 (by decide) (by decide),
   (ffs_C5_purge_duplicates Side.left [dupAW, dupBW, uniqW]).2⟩

end FFS
